import Mathlib

/-!
# ExpenseTracker-V2: authentication context, dashboard figures, income form, server start-up

A shallow embedding of `client/src/context/AuthContext.js`, of the financial calculations,
the expense analysis by category, the savings gauge and the route guard of
`client/src/components/Dashboard.jsx`, of the handlers and the
income table of `client/src/components/IncomeManager.jsx`, of the route guard of
`client/src/components/AuthPages.jsx`, and of `migrateExistingUsers` and the
error-handling middleware of `server/index.js`.

Conventions of the embedding:

* React state is a record; every `setX(v)` is a record update, applied in the order
  in which the source performs the calls.
* An `await`ed HTTP call is a value of `HttpResult`: the promise either resolves with
  the response data or rejects with an error.  The reply is an argument of each
  operation, so every theorem holds for whatever the server answers.
* An operation returns a `Run`: the final state, the requests it issued (in order) and
  either the value it returned or the error it threw.
* JavaScript strings are `String`s; `length` counts UTF-16 code units.
* Amounts are exact rationals (the arithmetic of JavaScript numbers without rounding
  error).
* A date is given by its calendar fields in the time zone of the browser, and month
  names are those of an English locale, the ones the `months` arrays of the source hold.
* An object created by `{}` is the list of its own properties, read over the properties
  it inherits from `Object.prototype`.
* The user store of the server is the list of its documents; the success of
  `User.find` and of each `user.save()` is an argument of the migration.
-/

namespace ExpenseTracker

/-! ## JavaScript helpers -/

/-- Number of UTF-16 code units of one character. -/
def utf16Units (c : Char) : Nat :=
  if c.toNat < 65536 then 1 else 2

/-- The JavaScript `s.length`: the number of UTF-16 code units of `s`. -/
def jsLength (s : String) : Nat :=
  (s.data.map utf16Units).sum

/-- The JavaScript `s.includes('@')`. -/
def includesAt (s : String) : Bool :=
  s.data.contains '@'

/-- Truthiness of a value that is `undefined` (`none`) or a string: only a non-empty
string is truthy. -/
def truthy : Option String → Bool
  | none => false
  | some m => m != ""

/-- The JavaScript `a || b` on values that are `undefined` or a string. -/
def jsOr (a b : Option String) : Option String :=
  if truthy a then a else b

/-- The JavaScript `a || 'literal'`, whose value is always a string. -/
def jsOrElse (a : Option String) (d : String) : String :=
  match a with
  | some m => if m != "" then m else d
  | none => d

/-- A thrown JavaScript error, as far as the handlers read it: `err.message` and
`err.response?.data?.message` (`none` when a link of the chain is undefined). -/
structure JsError where
  message : Option String
  responseMessage : Option String
  deriving DecidableEq, Repr

/-- The JavaScript `new Error(msg)`: a plain error carries no `response`. -/
def newError (msg : String) : JsError :=
  { message := some msg, responseMessage := none }

/-- Outcome of an awaited request. -/
inductive HttpResult (α : Type) where
  | resolved (data : α)
  | rejected (err : JsError)
  deriving DecidableEq, Repr

inductive HttpMethod where
  | get
  | post
  deriving DecidableEq, Repr

/-- A request handed to `axiosInstance`: method, path and the JSON body as the list of
its keys with their values, in the order of the object literal. -/
structure Request where
  method : HttpMethod
  url : String
  body : List (String × String)
  deriving DecidableEq, Repr

/-! ## Data model -/

/-- The public-safe user projection `{id, username, email}`. -/
structure UserProjection where
  id : String
  username : String
  email : String
  deriving DecidableEq, Repr

/-- The body of a response of the auth routes: a JSON object, of which the client reads
`user`. -/
structure ResponseData where
  user : Option UserProjection
  message : Option String
  deriving DecidableEq, Repr

/-- The state held by `AuthProvider` (`useState` cells). -/
structure AuthState where
  user : Option UserProjection
  loading : Bool
  error : Option String
  isInitialized : Bool
  deriving DecidableEq, Repr

/-- The initial values of the `useState` cells. -/
def AuthState.initial : AuthState :=
  { user := none, loading := false, error := none, isInitialized := false }

/-- What one call of an operation did. -/
structure Run (α : Type) where
  state : AuthState
  sent : List Request
  result : Except JsError α

/-- The call threw. -/
def Run.threw {α : Type} (r : Run α) : Bool :=
  match r.result with
  | .error _ => true
  | .ok _ => false

/-- The value returned, if the call returned. -/
def Run.returned {α : Type} (r : Run α) : Option α :=
  match r.result with
  | .error _ => none
  | .ok a => some a

/-! ## AuthContext.register -/

def registerRequest (username email password : String) : Request :=
  { method := .post, url := "/auth/register",
    body := [("username", username), ("email", email), ("password", password)] }

/-- The `try` block of `register`. -/
def registerTry (reply : HttpResult ResponseData) (s : AuthState)
    (username email password : String) : Run ResponseData :=
  let s := { s with loading := true }
  let s := { s with error := none }
  if !includesAt email then
    { state := s, sent := [], result := .error (newError "Invalid email format") }
  else if jsLength password < 6 then
    { state := s, sent := [],
      result := .error (newError "Password must be at least 6 characters long") }
  else
    match reply with
    | .resolved data =>
      { state := s, sent := [registerRequest username email password], result := .ok data }
    | .rejected err =>
      { state := s, sent := [registerRequest username email password], result := .error err }

/-- The `catch` block of `register`. -/
def registerCatch (s : AuthState) (err : JsError) : AuthState × JsError :=
  let errorMessage := jsOrElse (jsOr err.responseMessage err.message) "Registration failed"
  ({ s with error := some errorMessage }, newError errorMessage)

/-- The function `register(username, email, password)` of `AuthContext.js`. -/
def register (reply : HttpResult ResponseData) (s : AuthState)
    (username email password : String) : Run ResponseData :=
  let t := registerTry reply s username email password
  let c : Run ResponseData :=
    match t.result with
    | .ok data => { t with result := .ok data }
    | .error err =>
      let (s', e) := registerCatch t.state err
      { state := s', sent := t.sent, result := .error e }
  -- finally
  { c with state := { c.state with loading := false } }

/-! ## AuthContext.login -/

/-- The body of the login request: `email` when the input contains an `@`, `username`
otherwise, followed by `password`. -/
def loginBody (userInput password : String) : List (String × String) :=
  let isEmail := includesAt userInput
  (if isEmail then [("email", userInput)] else [("username", userInput)]) ++
    [("password", password)]

def loginRequest (userInput password : String) : Request :=
  { method := .post, url := "/auth/login", body := loginBody userInput password }

/-- The `try` block of `login`. -/
def loginTry (reply : HttpResult ResponseData) (s : AuthState)
    (userInput password : String) : Run ResponseData :=
  let s := { s with loading := true }
  let s := { s with error := none }
  match reply with
  | .resolved data =>
    { state := { s with user := data.user }, sent := [loginRequest userInput password],
      result := .ok data }
  | .rejected err =>
    { state := s, sent := [loginRequest userInput password], result := .error err }

/-- The `catch` block of `login`. -/
def loginCatch (s : AuthState) (err : JsError) : AuthState × JsError :=
  let errorMessage := jsOrElse err.responseMessage "An error occurred during login"
  ({ s with error := some errorMessage }, newError errorMessage)

/-- The function `login(userInput, password)` of `AuthContext.js`. -/
def login (reply : HttpResult ResponseData) (s : AuthState)
    (userInput password : String) : Run ResponseData :=
  let t := loginTry reply s userInput password
  let c : Run ResponseData :=
    match t.result with
    | .ok data => { t with result := .ok data }
    | .error err =>
      let (s', e) := loginCatch t.state err
      { state := s', sent := t.sent, result := .error e }
  -- finally
  { c with state := { c.state with loading := false } }

/-! ## AuthContext.logout -/

def logoutRequest : Request :=
  { method := .post, url := "/auth/logout", body := [] }

/-- The `try` block of `logout`. -/
def logoutTry (reply : HttpResult ResponseData) (s : AuthState) : Run Unit :=
  let s := { s with loading := true }
  match reply with
  | .resolved _ =>
    { state := { s with user := none }, sent := [logoutRequest], result := .ok () }
  | .rejected err =>
    { state := s, sent := [logoutRequest], result := .error err }

/-- The `catch` block of `logout`: the caught error itself is thrown again. -/
def logoutCatch (s : AuthState) (err : JsError) : AuthState × JsError :=
  ({ s with error := some (jsOrElse err.responseMessage "Logout failed") }, err)

/-- The function `logout()` of `AuthContext.js`. -/
def logout (reply : HttpResult ResponseData) (s : AuthState) : Run Unit :=
  let t := logoutTry reply s
  let c : Run Unit :=
    match t.result with
    | .ok u => { t with result := .ok u }
    | .error err =>
      let (s', e) := logoutCatch t.state err
      { state := s', sent := t.sent, result := .error e }
  -- finally
  { c with state := { c.state with loading := false } }

/-- Modelled from the spec: the `/auth/logout` route of the server (`server/routes/auth`,
which is not among the sources).  The spec says that logout "invalidates the session"
and is "idempotent — calling it on an already-invalid session is not an error": whether
the session was valid or not, it is invalid afterwards and the request resolves.  The
result is the validity of the session after the call and the reply. -/
def serverLogout (sessionValid : Bool) : Bool × HttpResult ResponseData :=
  match sessionValid with
  | true => (false, .resolved { user := none, message := none })
  | false => (false, .resolved { user := none, message := none })

/-! ## AuthContext.checkAuth -/

def meRequest : Request :=
  { method := .get, url := "/auth/me", body := [] }

/-- The function `checkAuth()` of `AuthContext.js`.  The body of the `/auth/me` response
is the projection itself (`none` when the body is `null`). -/
def checkAuth (reply : HttpResult (Option UserProjection)) (s : AuthState) : Run Bool :=
  match reply with
  | .resolved data =>
    { state := { s with user := data }, sent := [meRequest], result := .ok true }
  | .rejected _ =>
    { state := { s with user := none }, sent := [meRequest], result := .ok false }

/-! ## Dashboard: financial calculations -/

/-- An income record as the dashboard reads it. -/
structure Income where
  id : String
  amount : ℚ
  month : String
  year : Int
  isLocked : Bool
  deriving DecidableEq, Repr

/-- The calendar fields of `new Date(e.date)`: year, month index (0 = January) and day
of the month. -/
structure JsDate where
  year : Int
  month : Fin 12
  day : Nat
  deriving DecidableEq, Repr

/-- An expense record as the dashboard reads it. -/
structure Expense where
  id : String
  amount : ℚ
  category : String
  date : JsDate
  deriving DecidableEq, Repr

/-- The JavaScript `Math.round(x)`: the integer `floor(x + 0.5)`. -/
def mathRound (x : ℚ) : Int :=
  ⌊x + 1 / 2⌋

/-- `incomes.reduce((sum, income) => sum + income.amount, 0)`. -/
def totalIncome (incomes : List Income) : ℚ :=
  incomes.foldl (fun sum income => sum + income.amount) 0

/-- `expenses.reduce((sum, expense) => sum + expense.amount, 0)`. -/
def totalExpenses (expenses : List Expense) : ℚ :=
  expenses.foldl (fun sum expense => sum + expense.amount) 0

/-- `totalIncome - totalExpenses`. -/
def totalSavings (incomes : List Income) (expenses : List Expense) : ℚ :=
  totalIncome incomes - totalExpenses expenses

/-- `totalIncome > 0 ? Math.round((totalSavings / totalIncome) * 100) : 0`. -/
def savingsPercentage (incomes : List Income) (expenses : List Expense) : Int :=
  if totalIncome incomes > 0 then
    mathRound ((totalSavings incomes expenses / totalIncome incomes) * 100)
  else 0

/-- The UTF-16 code units of one character. -/
def utf16Encode (c : Char) : List Nat :=
  if c.toNat < 65536 then [c.toNat]
  else [55296 + (c.toNat - 65536) / 1024, 56320 + (c.toNat - 65536) % 1024]

/-- The UTF-16 code units of a string: what JavaScript indexes and compares. -/
def utf16 (s : String) : List Nat :=
  (s.data.map utf16Encode).flatten

/-- The JavaScript `s.substring(a, b)` for `a <= b`, as code units. -/
def jsSubstring (s : String) (a b : Nat) : List Nat :=
  ((utf16 s).drop a).take (b - a)

/-- The JavaScript `x || 0` on a value that is `undefined` (`none`) or a number: zero is
falsy. -/
def numOrZero (x : Option ℚ) : ℚ :=
  match x with
  | some v => if v ≠ 0 then v else 0
  | none => 0

/-- The array `months` of `DateSelection.jsx` and `IncomeManager.jsx`. -/
def months : List String :=
  ["January", "February", "March", "April", "May", "June",
   "July", "August", "September", "October", "November", "December"]

/-- The array `monthNames` of `getMonthlyTrendData`. -/
def monthNames : List String :=
  ["Jan", "Feb", "Mar", "Apr", "May", "Jun", "Jul", "Aug", "Sep", "Oct", "Nov", "Dec"]

/-- `date.toLocaleString('default', { month: 'long' })` in an English locale: the full
name of the month of the date. -/
def toLocaleMonthLong (d : JsDate) : String :=
  months.getD d.month.val ""

/-- `date.toLocaleString('default', { month: 'short' })` in an English locale. -/
def toLocaleMonthShort (d : JsDate) : String :=
  monthNames.getD d.month.val ""

/-- The object `monthlyData`. -/
structure MonthlyData where
  income : ℚ
  expenses : ℚ
  deriving DecidableEq, Repr

/-- The `monthlyData` of `Dashboard` for the selected month and year:
`incomes.find(...)?.amount || 0` and `expenses.filter(...).reduce(...)`. -/
def monthlyData (incomes : List Income) (expenses : List Expense)
    (selectedMonth : String) (selectedYear : Int) : MonthlyData :=
  { income :=
      numOrZero ((incomes.find? fun i => i.month == selectedMonth && i.year == selectedYear).map
        fun i => i.amount)
    expenses :=
      (expenses.filter fun e =>
          toLocaleMonthLong e.date == selectedMonth && e.date.year == selectedYear).foldl
        (fun sum expense => sum + expense.amount) 0 }

/-- One entry of the monthly trend data. -/
structure TrendEntry where
  month : String
  income : ℚ
  expenses : ℚ
  savings : ℚ
  deriving DecidableEq, Repr

/-- The function `getMonthlyTrendData` of `Dashboard`. -/
def getMonthlyTrendData (incomes : List Income) (expenses : List Expense)
    (selectedYear : Int) : List TrendEntry :=
  monthNames.map fun month =>
    let income :=
      numOrZero ((incomes.find? fun i =>
        jsSubstring i.month 0 3 == utf16 month && i.year == selectedYear).map fun i => i.amount)
    let monthExpenses :=
      (expenses.filter fun e =>
          toLocaleMonthShort e.date == month && e.date.year == selectedYear).foldl
        (fun sum e => sum + e.amount) 0
    { month := month, income := income, expenses := monthExpenses,
      savings := income - monthExpenses }

/-! ## Numbers read from text -/

/-- A JavaScript number as `parseFloat` and `parseInt` can produce it; finite values are
exact rationals. -/
inductive JsNumber where
  | nan
  | infinity (negative : Bool)
  | num (q : ℚ)
  deriving DecidableEq, Repr

/-- The unary minus of JavaScript. -/
def JsNumber.negate : JsNumber → JsNumber
  | .nan => .nan
  | .infinity negative => .infinity (!negative)
  | .num q => .num (-q)

/-- White space and line terminators, which `parseFloat` and `parseInt` skip at the
start of their argument. -/
def isWhiteSpace (c : Char) : Bool :=
  [9, 10, 11, 12, 13, 32, 160, 5760, 8192, 8193, 8194, 8195, 8196, 8197, 8198, 8199, 8200,
    8201, 8202, 8232, 8233, 8239, 8287, 12288, 65279].contains c.toNat

/-- An ASCII digit `0`..`9`. -/
def isAsciiDigit (c : Char) : Bool :=
  decide (48 ≤ c.toNat) && decide (c.toNat ≤ 57)

/-- The value of a run of decimal digits. -/
def decimalValue (ds : List Char) : Nat :=
  ds.foldl (fun n c => 10 * n + (c.toNat - 48)) 0

/-- The value of an exponent part (`e` or `E`, an optional sign, digits) at the head of
`cs`; 0 when there is none. -/
def exponentValue (cs : List Char) : Int :=
  match cs with
  | [] => 0
  | c :: rest =>
    if c = 'e' ∨ c = 'E' then
      match rest with
      | '-' :: ds =>
        if ds.takeWhile isAsciiDigit = [] then 0
        else -((decimalValue (ds.takeWhile isAsciiDigit) : Nat) : Int)
      | '+' :: ds => ((decimalValue (ds.takeWhile isAsciiDigit) : Nat) : Int)
      | ds => ((decimalValue (ds.takeWhile isAsciiDigit) : Nat) : Int)
    else 0

/-- The value of the longest prefix of `cs` that is an unsigned decimal literal
(`Infinity`, or digits with an optional fraction and exponent); `NaN` when no prefix is
one. -/
def unsignedDecimalValue (cs : List Char) : JsNumber :=
  if cs.take 8 = ['I', 'n', 'f', 'i', 'n', 'i', 't', 'y'] then .infinity false
  else
    let intDigits := cs.takeWhile isAsciiDigit
    let afterInt := cs.dropWhile isAsciiDigit
    let fracDigits :=
      match afterInt with
      | '.' :: r => r.takeWhile isAsciiDigit
      | _ => []
    let afterFrac :=
      match afterInt with
      | '.' :: r => r.dropWhile isAsciiDigit
      | _ => afterInt
    if intDigits = [] ∧ fracDigits = [] then .nan
    else
      .num (((decimalValue intDigits : ℚ) +
          (decimalValue fracDigits : ℚ) / (10 : ℚ) ^ fracDigits.length) *
        (10 : ℚ) ^ exponentValue afterFrac)

/-- The JavaScript `parseFloat(s)`. -/
def parseFloat (s : String) : JsNumber :=
  match s.data.dropWhile isWhiteSpace with
  | '-' :: cs => (unsignedDecimalValue cs).negate
  | '+' :: cs => unsignedDecimalValue cs
  | cs => unsignedDecimalValue cs

/-- The value of a character as a digit of the radix, if it is one. -/
def radixDigit (radix : Nat) (c : Char) : Option Nat :=
  let v :=
    if isAsciiDigit c then c.toNat - 48
    else if 97 ≤ c.toNat ∧ c.toNat ≤ 122 then c.toNat - 87
    else if 65 ≤ c.toNat ∧ c.toNat ≤ 90 then c.toNat - 55
    else radix
  if v < radix then some v else none

/-- The value of the longest prefix of `cs` made of digits of the radix; `NaN` when it
is empty. -/
def unsignedIntegerValue (radix : Nat) (cs : List Char) : JsNumber :=
  let ds := cs.takeWhile fun c => (radixDigit radix c).isSome
  if ds = [] then .nan
  else .num ((ds.foldl (fun n c => radix * n + (radixDigit radix c).getD 0) 0 : Nat) : ℚ)

/-- The digits after the sign: radix 16 after a prefix `0x` or `0X`, radix 10
otherwise. -/
def prefixedIntegerValue (cs : List Char) : JsNumber :=
  match cs with
  | '0' :: 'x' :: r => unsignedIntegerValue 16 r
  | '0' :: 'X' :: r => unsignedIntegerValue 16 r
  | _ => unsignedIntegerValue 10 cs

/-- The JavaScript `parseInt(s)` with no radix argument. -/
def parseInt (s : String) : JsNumber :=
  match s.data.dropWhile isWhiteSpace with
  | '-' :: cs => (prefixedIntegerValue cs).negate
  | '+' :: cs => prefixedIntegerValue cs
  | cs => prefixedIntegerValue cs

/-! ## IncomeManager -/

/-- The `useState` cells of the form of `IncomeManager`; `year` is held as the text that
`parseInt` reads. -/
structure FormState where
  amount : String
  month : String
  year : String
  deriving DecidableEq, Repr

/-- The arguments of one call of `addIncome`. -/
structure AddIncomeCall where
  amount : JsNumber
  month : String
  year : JsNumber
  deriving DecidableEq, Repr

/-- What one call of a handler of `IncomeManager` did: the form afterwards, the calls of
`addIncome` and `lockIncome` it made, what it wrote with `console.error`, and whether it
returned or threw. -/
structure HandlerRun where
  form : FormState
  addIncomeCalls : List AddIncomeCall
  lockIncomeCalls : List String
  console : List String
  result : Except JsError Unit

/-- The handler threw. -/
def HandlerRun.threw (r : HandlerRun) : Bool :=
  match r.result with
  | .error _ => true
  | .ok _ => false

/-- The function `handleSubmit` of `IncomeManager`; `reply` is the outcome of the awaited
`addIncome`. -/
def handleSubmit (reply : HttpResult Unit) (f : FormState) : HandlerRun :=
  let call : AddIncomeCall :=
    { amount := parseFloat f.amount, month := f.month, year := parseInt f.year }
  match reply with
  | .resolved _ =>
    { form := { f with amount := "", month := "" }, addIncomeCalls := [call],
      lockIncomeCalls := [], console := [], result := .ok () }
  | .rejected _ =>
    { form := f, addIncomeCalls := [call], lockIncomeCalls := [],
      console := ["Failed to add income:"], result := .ok () }

/-- The function `handleLock` of `IncomeManager`; `reply` is the outcome of the awaited
`lockIncome`. -/
def handleLock (reply : HttpResult Unit) (f : FormState) (id : String) : HandlerRun :=
  match reply with
  | .resolved _ =>
    { form := f, addIncomeCalls := [], lockIncomeCalls := [id], console := [],
      result := .ok () }
  | .rejected _ =>
    { form := f, addIncomeCalls := [], lockIncomeCalls := [id],
      console := ["Failed to lock income:"], result := .ok () }

/-- The end of a valid floating-point number: nothing, or an exponent (`e` or `E`, an
optional sign, one or more digits) and nothing after it. -/
def validExponent (cs : List Char) : Bool :=
  match cs with
  | [] => true
  | c :: rest =>
    (c = 'e' ∨ c = 'E') &&
      (match rest with
        | '-' :: ds => ds ≠ [] && ds.all isAsciiDigit
        | '+' :: ds => ds ≠ [] && ds.all isAsciiDigit
        | ds => ds ≠ [] && ds.all isAsciiDigit)

/-- The part of a valid floating-point number after the optional `-`. -/
def validUnsignedNumber (cs : List Char) : Bool :=
  match cs.dropWhile isAsciiDigit with
  | '.' :: r => r.takeWhile isAsciiDigit ≠ [] && validExponent (r.dropWhile isAsciiDigit)
  | rest => cs.takeWhile isAsciiDigit ≠ [] && validExponent rest

/-- A string that HTML calls a valid floating-point number: an optional `-`, digits
and/or a fraction (`.` and digits), an optional exponent, and nothing else.  It is what
the value of an `<input type="number">` is when it is not empty. -/
def validFloatingPointNumber (s : String) : Bool :=
  match s.data with
  | '-' :: cs => validUnsignedNumber cs
  | cs => validUnsignedNumber cs

/-- The constraints of the form under which the browser fires `onSubmit`: the `required`
number input for the amount holds a valid floating-point number, the `required` select
holds one of its twelve month options, and the `required` number input for the year
holds a valid floating-point number. -/
def formConstraints (f : FormState) : Bool :=
  validFloatingPointNumber f.amount && months.contains f.month &&
    validFloatingPointNumber f.year

/-- The Lock button of the actions cell of a row. -/
structure LockButton where
  incomeId : String
  disabled : Bool
  deriving DecidableEq, Repr

/-- The status cell of the row of an income record. -/
def statusCell (income : Income) : String :=
  if income.isLocked then "Locked" else "Active"

/-- The actions cell of the row of an income record:
`!income.isLocked && <button onClick={() => handleLock(income._id)} disabled={loading}>`. -/
def actionsCell (loading : Bool) (income : Income) : List LockButton :=
  if !income.isLocked then [{ incomeId := income.id, disabled := loading }] else []

/-- A click on a button of the actions cell: a disabled button does nothing, an enabled
one runs `handleLock(income._id)`. -/
def clickLock (reply : HttpResult Unit) (f : FormState) (b : LockButton) :
    Option HandlerRun :=
  if b.disabled then none else some (handleLock reply f b.incomeId)

/-- The ids on which `lockIncome` is invoked when every button of the row of `income` is
clicked. -/
def lockIncomeCallsOfRow (reply : HttpResult Unit) (f : FormState) (loading : Bool)
    (income : Income) : List String :=
  ((actionsCell loading income).map fun b =>
    match clickLock reply f b with
    | some r => r.lockIncomeCalls
    | none => []).flatten

/-- One action of the user on the row of a record: a click on an enabled button of its
actions cell, after which the record is `effect income`, whatever `lockIncome` does to
it. -/
inductive RowStep (effect : Income → Income) : Income → Income → Prop where
  | click (loading : Bool) (income : Income) (b : LockButton) :
      b ∈ actionsCell loading income → b.disabled = false →
      RowStep effect income (effect income)

/-- Any number of actions of the user on the row of a record. -/
inductive RowReach (effect : Income → Income) : Income → Income → Prop where
  | refl (income : Income) : RowReach effect income income
  | step (a b c : Income) : RowReach effect a b → RowStep effect b c → RowReach effect a c

/-! ## Server: migration of existing users -/

/-- A stored user document; `email = none` when the document has no `email` field. -/
structure User where
  id : String
  username : String
  email : Option String
  password : String
  createdAt : String
  deriving DecidableEq, Repr

/-- A line written to the console of the server. -/
inductive LogEntry where
  | log (msg : String)
  | error (msg : String)
  deriving DecidableEq, Repr

/-- What one call of `migrateExistingUsers` did: the store afterwards, the console lines,
and whether it returned or threw. -/
structure MigrationRun where
  store : List User
  console : List LogEntry
  result : Except JsError Unit

/-- The call logged `Migration failed:`. -/
def MigrationRun.failed (r : MigrationRun) : Bool :=
  r.console.contains (.error "Migration failed:")

/-- `User.find({ email: { $exists: false } })`: the documents without an `email` field,
in store order. -/
def findWithoutEmail (store : List User) : List User :=
  store.filter fun u => u.email.isNone

/-- The assignment of `user.username` followed by `@temporary.com` to `user.email`. -/
def withTemporaryEmail (user : User) : User :=
  { user with email := some (user.username ++ "@temporary.com") }

/-- A successful `user.save()`: the stored document with the id of `user` becomes
`user`. -/
def saveDocument (store : List User) (user : User) : List User :=
  store.map fun d => if d.id = user.id then user else d

/-- The `for` loop of `migrateExistingUsers` over the found documents.  `saveOk store
user` tells whether `user.save()` succeeds on the current store; a failing save throws
out of the loop.  The result is the store and whether the loop ran to its end. -/
def migrateLoop (saveOk : List User → User → Bool) :
    List User → List User → List User × Bool
  | [], store => (store, true)
  | user :: rest, store =>
    if saveOk store (withTemporaryEmail user) then
      migrateLoop saveOk rest (saveDocument store (withTemporaryEmail user))
    else (store, false)

/-- The function `migrateExistingUsers` of `server/index.js`.  `findOk` tells whether
`User.find` succeeds. -/
def migrateExistingUsers (findOk : Bool) (saveOk : List User → User → Bool)
    (store : List User) : MigrationRun :=
  if findOk then
    let users := findWithoutEmail store
    if users.length > 0 then
      let found := LogEntry.log ("Found " ++ toString users.length ++ " users to migrate")
      match migrateLoop saveOk users store with
      | (store', true) =>
        { store := store', console := [found, .log "Migration completed successfully"],
          result := .ok () }
      | (store', false) =>
        { store := store', console := [found, .error "Migration failed:"],
          result := .ok () }
    else
      { store := store, console := [.log "No users need migration"], result := .ok () }
  else
    { store := store, console := [.error "Migration failed:"], result := .ok () }

/-- Usernames are unique across the store. -/
def usernamesDistinct (store : List User) : Prop :=
  (store.map fun u => u.username).Nodup

/-- Emails are unique across the users that have one. -/
def emailsDistinct (store : List User) : Prop :=
  (store.filterMap fun u => u.email).Nodup

/-! ## Server: error-handling middleware -/

/-- An error that reaches the middleware. -/
structure ServerError where
  message : String
  stack : String
  deriving DecidableEq, Repr

/-- The response written by `res.status(...).json(...)`. -/
structure HttpResponse where
  status : Nat
  body : List (String × String)
  deriving DecidableEq, Repr

/-- What the middleware did: the line it logged and the response it sent. -/
structure MiddlewareRun where
  console : List String
  response : HttpResponse
  deriving DecidableEq, Repr

/-- The error-handling middleware `(err, req, res, next) => ...` of `server/index.js`. -/
def errorMiddleware (err : ServerError) : MiddlewareRun :=
  { console := [err.stack],
    response := { status := 500, body := [("message", "Something went wrong!")] } }

/-! ## Route guards -/

/-- The guard effect of `Dashboard`: `if (!user) navigate('/auth')`.  The result is the
path navigated to, if any. -/
def dashboardGuard (user : Option UserProjection) : Option String :=
  if !user.isSome then some "/auth" else none

/-- The guard effect of `AuthPages`: `if (user) navigate('/dashboard')`. -/
def authPagesGuard (user : Option UserProjection) : Option String :=
  if user.isSome then some "/dashboard" else none

/-- The routes of `App.jsx` with the guard of the page each one renders: `/auth` renders
`AuthPages`, `/dashboard` renders `Dashboard`, `/` navigates to `/auth`, and no other
path has a route. -/
def routeRedirect (path : String) (user : Option UserProjection) : Option String :=
  if path = "/auth" then authPagesGuard user
  else if path = "/dashboard" then dashboardGuard user
  else if path = "/" then some "/auth"
  else none

/-! ## Dashboard: expense analysis by category -/

/-- A value held by a property of the object `categoryData`: a number, or a string (the
result of `+` on a non-number; its text is not modelled). -/
inductive JsValue where
  | num (q : ℚ)
  | str
  deriving DecidableEq, Repr

/-- The own properties of an ordinary object created by `{}`, in order of creation. -/
abbrev JsObject := List (String × JsValue)

/-- The names of the properties that an object created by `{}` inherits from
`Object.prototype`. -/
def objectPrototypeKeys : List String :=
  ["constructor", "__defineGetter__", "__defineSetter__", "hasOwnProperty",
   "__lookupGetter__", "__lookupSetter__", "isPrototypeOf", "propertyIsEnumerable",
   "toString", "valueOf", "__proto__", "toLocaleString"]

/-- What reading `acc[key]` gives: `undefined`, the value of an own property, or an
inherited function or object. -/
inductive PropertyRead where
  | undefined
  | own (v : JsValue)
  | inherited
  deriving DecidableEq, Repr

/-- The value of the own property `key`, if the object has one. -/
def ownProperty : JsObject → String → Option JsValue
  | [], _ => none
  | (k, v) :: rest, key => if k = key then some v else ownProperty rest key

/-- The read `acc[key]`: an own property first, then the prototype. -/
def readProperty (o : JsObject) (key : String) : PropertyRead :=
  match ownProperty o key with
  | some v => .own v
  | none => if key ∈ objectPrototypeKeys then .inherited else .undefined

/-- The expression `(r || 0) + amount`: `undefined` and the number 0 are falsy; a
number adds; a string, a function or an object concatenates into a string. -/
def orZeroPlus (r : PropertyRead) (amount : ℚ) : JsValue :=
  match r with
  | .undefined => .num (0 + amount)
  | .own (.num v) => if v ≠ 0 then .num (v + amount) else .num (0 + amount)
  | .own .str => .str
  | .inherited => .str

/-- Sets the own property `key`: an existing one keeps its place, a new one goes last. -/
def defineOwn : JsObject → String → JsValue → JsObject
  | [], key, v => [(key, v)]
  | (k, w) :: rest, key, v =>
    if k = key then (key, v) :: rest else (k, w) :: defineOwn rest key v

/-- The assignment `acc[key] = v` of a number or a string: the inherited setter of
`__proto__` ignores it, every other key becomes an own property. -/
def writeProperty (o : JsObject) (key : String) (v : JsValue) : JsObject :=
  if key = "__proto__" then o else defineOwn o key v

/-- The reducer of `categoryData`:
`acc[expense.category] = (acc[expense.category] || 0) + expense.amount; return acc`. -/
def categoryStep (acc : JsObject) (expense : Expense) : JsObject :=
  writeProperty acc expense.category
    (orZeroPlus (readProperty acc expense.category) expense.amount)

/-- The object `categoryData` of `Dashboard`. -/
def categoryData (expenses : List Expense) (selectedMonth : String) (selectedYear : Int) :
    JsObject :=
  (expenses.filter fun e =>
    toLocaleMonthLong e.date == selectedMonth && e.date.year == selectedYear).foldl
      categoryStep []

/-- The array index that a property key denotes, if it is the canonical decimal text of
an integer below `2^32 - 1`. -/
def arrayIndex? (key : String) : Option Nat :=
  if key.data ≠ [] ∧ key.data.all isAsciiDigit = true ∧
      (key.data.head? ≠ some '0' ∨ key.data.length = 1) ∧
      decimalValue key.data < 4294967295 then
    some (decimalValue key.data)
  else none

/-- `Object.entries(o)`: the properties whose keys are array indices first, in ascending
order of index, then the others in order of creation. -/
def objectEntries (o : JsObject) : List (String × JsValue) :=
  (o.filter fun e => (arrayIndex? e.1).isSome).insertionSort
      (fun a b => (arrayIndex? a.1).getD 0 ≤ (arrayIndex? b.1).getD 0) ++
    o.filter fun e => !(arrayIndex? e.1).isSome

/-- An element of `barChartData`. -/
structure BarEntry where
  category : String
  amount : JsValue
  deriving DecidableEq, Repr

/-- The array `barChartData` of `Dashboard`. -/
def barChartData (expenses : List Expense) (selectedMonth : String) (selectedYear : Int) :
    List BarEntry :=
  (objectEntries (categoryData expenses selectedMonth selectedYear)).map fun e =>
    { category := e.1, amount := e.2 }

/-- The sum of the amounts of the entries of an object whose values are numbers; a
value that is not a number counts for nothing. -/
def entriesTotal (o : JsObject) : ℚ :=
  (o.map fun e =>
    match e.2 with
    | .num q => q
    | .str => 0).sum

/-! ## Dashboard: savings gauge -/

/-- The `fill` expression of `radialData`:
`savingsPercentage > 30 ? '#4CAF50' : savingsPercentage > 10 ? '#FFC107' : '#f44336'`. -/
def radialFill (savingsPercentage : Int) : String :=
  if savingsPercentage > 30 then "#4CAF50"
  else if savingsPercentage > 10 then "#FFC107"
  else "#f44336"

/-- An element of `radialData`. -/
structure RadialEntry where
  name : String
  value : Int
  fill : String
  deriving DecidableEq, Repr

/-- The array `radialData` of `Dashboard`. -/
def radialData (incomes : List Income) (expenses : List Expense) : List RadialEntry :=
  [{ name := "Savings", value := savingsPercentage incomes expenses,
     fill := radialFill (savingsPercentage incomes expenses) }]

/-! ## AuthContext.useAuth -/

/-- `useContext(AuthContext)`: the value of the nearest enclosing `AuthProvider`, the
innermost first in `providers`, or the default `null` of `createContext(null)` when there
is none.  The value of a provider is an object, here the state cells it carries. -/
def useContext (providers : List AuthState) : Option AuthState :=
  providers.head?

/-- The hook `useAuth` of `AuthContext.js`. -/
def useAuth (providers : List AuthState) : Except JsError (Option AuthState) :=
  let context := useContext providers
  if !context.isSome then .error (newError "useAuth must be used within an AuthProvider")
  else .ok context

/-! ## Auxiliary lemmas -/

theorem foldl_add_eq_sum {α : Type} (f : α → ℚ) (l : List α) (a : ℚ) :
    l.foldl (fun sum x => sum + f x) a = a + (l.map f).sum := by
  induction l generalizing a with
  | nil => simp
  | cons x xs ih => simp [ih, add_assoc]

theorem register_sent_invalid (reply : HttpResult ResponseData) (s : AuthState)
    (username email password : String)
    (h : includesAt email = false ∨ jsLength password < 6) :
    (register reply s username email password).sent = [] := by
  unfold register registerTry
  rcases h with h | h
  · simp [h]
  · cases he : includesAt email <;> simp [h]

theorem register_sent_valid (reply : HttpResult ResponseData) (s : AuthState)
    (username email password : String)
    (he : includesAt email = true) (hp : 6 ≤ jsLength password) :
    (register reply s username email password).sent =
      [registerRequest username email password] := by
  unfold register registerTry
  have hp' : ¬ jsLength password < 6 := by omega
  cases reply <;> simp [he, hp']

/-! ## Theorems: AuthContext -/

/-- C1: `register` throws without having issued a request exactly when the email has no
`@` or the password has fewer than 6 code units; a valid input (length 6 included) issues
the request with body `{username, email, password}`; an email without `@` throws
`Invalid email format` (also when the password is too short), and otherwise a short
password throws `Password must be at least 6 characters long`. -/
theorem register_validation (reply : HttpResult ResponseData) (s : AuthState)
    (username email password : String) :
    (((register reply s username email password).sent = [] ∧
        (register reply s username email password).threw = true) ↔
      (includesAt email = false ∨ jsLength password < 6)) ∧
    (includesAt email = true → 6 ≤ jsLength password →
      (register reply s username email password).sent =
        [{ method := .post, url := "/auth/register",
           body := [("username", username), ("email", email), ("password", password)] }]) ∧
    (includesAt email = false →
      (register reply s username email password).sent = [] ∧
      (register reply s username email password).result =
        .error (newError "Invalid email format")) ∧
    (includesAt email = true → jsLength password < 6 →
      (register reply s username email password).sent = [] ∧
      (register reply s username email password).result =
        .error (newError "Password must be at least 6 characters long")) := by
  refine ⟨?_, ?_, ?_, ?_⟩
  · constructor
    · rintro ⟨hs, -⟩
      by_contra hc
      push_neg at hc
      have he : includesAt email = true := by simpa using hc.1
      have := register_sent_valid reply s username email password he hc.2
      rw [hs] at this
      simp at this
    · intro h
      refine ⟨register_sent_invalid reply s username email password h, ?_⟩
      unfold register registerTry Run.threw
      rcases h with h | h
      · simp [h]
      · cases he : includesAt email <;> simp [h]
  · intro he hp
    exact register_sent_valid reply s username email password he hp
  · intro he
    refine ⟨register_sent_invalid reply s username email password (Or.inl he), ?_⟩
    simp [register, registerTry, registerCatch, he, newError, jsOr, jsOrElse, truthy]
  · intro he hp
    refine ⟨register_sent_invalid reply s username email password (Or.inr hp), ?_⟩
    simp [register, registerTry, registerCatch, he, hp, newError, jsOr, jsOrElse, truthy]

/-- Witness of C1: a valid registration, one without `@` and a short password, and one
with a short password only. -/
theorem register_validation_witness :
    (register (.resolved ⟨none, none⟩) AuthState.initial "bob" "bob@x.org" "secret").sent =
        [{ method := .post, url := "/auth/register",
           body := [("username", "bob"), ("email", "bob@x.org"), ("password", "secret")] }] ∧
    (register (.resolved ⟨none, none⟩) AuthState.initial "bob" "bob.x.org" "abc").result =
        .error (newError "Invalid email format") ∧
    (register (.resolved ⟨none, none⟩) AuthState.initial "bob" "bob@x.org" "abcde").result =
        .error (newError "Password must be at least 6 characters long") :=
  ⟨(register_validation (.resolved ⟨none, none⟩) AuthState.initial "bob" "bob@x.org"
      "secret").2.1 (by decide) (by decide),
   ((register_validation (.resolved ⟨none, none⟩) AuthState.initial "bob" "bob.x.org"
      "abc").2.2.1 (by decide)).2,
   ((register_validation (.resolved ⟨none, none⟩) AuthState.initial "bob" "bob@x.org"
      "abcde").2.2.2 (by decide) (by decide)).2⟩

/-- C2: when `register` rejects its input by validation, no request is sent and the
`user` state is what it was before the call. -/
theorem register_rejected_no_partial (reply : HttpResult ResponseData) (s : AuthState)
    (username email password : String)
    (h : includesAt email = false ∨ jsLength password < 6) :
    (register reply s username email password).sent = [] ∧
    (∀ r ∈ (register reply s username email password).sent, r.url ≠ "/auth/register") ∧
    (register reply s username email password).state.user = s.user := by
  have hs := register_sent_invalid reply s username email password h
  refine ⟨hs, ?_, ?_⟩
  · rw [hs]; simp
  · unfold register registerTry registerCatch
    rcases h with h | h
    · simp [h]
    · cases he : includesAt email <;> simp [h]

/-- Witness of C2: a logged-in state and a password of five characters. -/
theorem register_rejected_no_partial_witness :
    (register (.resolved ⟨none, none⟩)
        { user := some ⟨"1", "ann", "ann@x.org"⟩, loading := false, error := none,
          isInitialized := true } "bob" "bob@x.org" "abcde").sent = [] ∧
    (register (.resolved ⟨none, none⟩)
        { user := some ⟨"1", "ann", "ann@x.org"⟩, loading := false, error := none,
          isInitialized := true } "bob" "bob@x.org" "abcde").state.user =
      some ⟨"1", "ann", "ann@x.org"⟩ :=
  have h := register_rejected_no_partial (.resolved ⟨none, none⟩)
    { user := some ⟨"1", "ann", "ann@x.org"⟩, loading := false, error := none,
      isInitialized := true } "bob" "bob@x.org" "abcde" (Or.inr (by decide))
  ⟨h.1, h.2.2⟩

/-- C3: for every input, `login` sends one request to `/auth/login` whose body holds
`email` (and no `username`) when the input contains an `@`, `username` (and no `email`)
otherwise, and in both cases `password` unchanged; exactly one of the two identifier
keys is present. -/
theorem login_body_disambiguation (reply : HttpResult ResponseData) (s : AuthState)
    (userInput password : String) :
    (login reply s userInput password).sent =
      [{ method := .post, url := "/auth/login", body := loginBody userInput password }] ∧
    (includesAt userInput = true →
      loginBody userInput password = [("email", userInput), ("password", password)] ∧
      (loginBody userInput password).lookup "email" = some userInput ∧
      (loginBody userInput password).lookup "username" = none) ∧
    (includesAt userInput = false →
      loginBody userInput password = [("username", userInput), ("password", password)] ∧
      (loginBody userInput password).lookup "username" = some userInput ∧
      (loginBody userInput password).lookup "email" = none) ∧
    (loginBody userInput password).lookup "password" = some password ∧
    (((loginBody userInput password).lookup "email").isSome !=
      ((loginBody userInput password).lookup "username").isSome) = true := by
  refine ⟨?_, ?_, ?_, ?_, ?_⟩
  · cases reply <;> simp [login, loginTry, loginCatch, loginRequest]
  · intro h
    simp [loginBody, h, List.lookup]
  · intro h
    simp [loginBody, h, List.lookup]
  · cases h : includesAt userInput <;> simp [loginBody, h, List.lookup]
  · cases h : includesAt userInput <;> simp [loginBody, h, List.lookup]

/-- Witness of C3: an email address and a plain user name. -/
theorem login_body_disambiguation_witness :
    loginBody "ann@x.org" "secret" = [("email", "ann@x.org"), ("password", "secret")] ∧
    loginBody "ann" "secret" = [("username", "ann"), ("password", "secret")] :=
  ⟨((login_body_disambiguation (.resolved ⟨none, none⟩) AuthState.initial "ann@x.org"
      "secret").2.1 (by decide)).1,
   ((login_body_disambiguation (.resolved ⟨none, none⟩) AuthState.initial "ann"
      "secret").2.2.1 (by decide)).1⟩

/-- C6: a call of `login`, `register` or `logout` that throws leaves `user` as it
was. -/
theorem failed_call_keeps_user (loginReply registerReply logoutReply : HttpResult ResponseData)
    (s : AuthState) (userInput username email password : String) :
    ((login loginReply s userInput password).threw = true →
      (login loginReply s userInput password).state.user = s.user) ∧
    ((register registerReply s username email password).threw = true →
      (register registerReply s username email password).state.user = s.user) ∧
    ((logout logoutReply s).threw = true → (logout logoutReply s).state.user = s.user) := by
  refine ⟨?_, ?_, ?_⟩
  · cases loginReply <;> simp [login, loginTry, loginCatch, Run.threw]
  · intro _
    unfold register registerTry registerCatch
    cases registerReply <;> cases includesAt email <;>
      by_cases hp : jsLength password < 6 <;> simp [hp]
  · cases logoutReply <;> simp [logout, logoutTry, logoutCatch, Run.threw]

/-- Witness of C6: a rejected login, a registration failing validation and a rejected
logout, each from a logged-in state. -/
theorem failed_call_keeps_user_witness :
    (login (.rejected ⟨some "Request failed", some "Invalid credentials"⟩)
        { user := some ⟨"1", "ann", "ann@x.org"⟩, loading := false, error := none,
          isInitialized := true } "bob" "secret").state.user =
      some ⟨"1", "ann", "ann@x.org"⟩ ∧
    (register (.resolved ⟨none, none⟩)
        { user := some ⟨"1", "ann", "ann@x.org"⟩, loading := false, error := none,
          isInitialized := true } "bob" "bob" "secret").state.user =
      some ⟨"1", "ann", "ann@x.org"⟩ ∧
    (logout (.rejected ⟨some "Network Error", none⟩)
        { user := some ⟨"1", "ann", "ann@x.org"⟩, loading := false, error := none,
          isInitialized := true }).state.user =
      some ⟨"1", "ann", "ann@x.org"⟩ :=
  have h := failed_call_keeps_user
    (.rejected ⟨some "Request failed", some "Invalid credentials"⟩)
    (.resolved ⟨none, none⟩) (.rejected ⟨some "Network Error", none⟩)
    { user := some ⟨"1", "ann", "ann@x.org"⟩, loading := false, error := none,
      isInitialized := true } "bob" "bob" "bob" "secret"
  ⟨h.1 (by decide), h.2.1 (by decide), h.2.2 (by decide)⟩

/-- C7: a logout whose request resolves is not an error in any state (also when `user`
is already `null`) and ends with `user = null`, `loading = false` and `error`
unchanged; a second logout then changes nothing.  With the logout route of the spec the
request resolves for a valid and for an invalid session alike, so logging out twice is
never an error and gives the state of logging out once.  More generally the state after
two logouts with the same reply is the state after one. -/
theorem logout_idempotent (s : AuthState) (d₁ d₂ : ResponseData)
    (reply : HttpResult ResponseData) (sessionValid : Bool) :
    (logout (.resolved d₁) s).threw = false ∧
    (logout (.resolved d₁) s).state = { s with user := none, loading := false } ∧
    (logout (.resolved d₁) s).state.error = s.error ∧
    (logout (.resolved d₂) (logout (.resolved d₁) s).state).threw = false ∧
    (logout (.resolved d₂) (logout (.resolved d₁) s).state).state =
      (logout (.resolved d₁) s).state ∧
    (logout (serverLogout sessionValid).2 s).threw = false ∧
    (logout (serverLogout (serverLogout sessionValid).1).2
        (logout (serverLogout sessionValid).2 s).state).threw = false ∧
    (logout (serverLogout (serverLogout sessionValid).1).2
        (logout (serverLogout sessionValid).2 s).state).state =
      (logout (serverLogout sessionValid).2 s).state ∧
    (logout (serverLogout sessionValid).2 s).state =
      { s with user := none, loading := false } ∧
    (logout reply (logout reply s).state).state = (logout reply s).state := by
  refine ⟨?_, ?_, ?_, ?_, ?_, ?_, ?_, ?_, ?_, ?_⟩
  · simp [logout, logoutTry, Run.threw]
  · simp [logout, logoutTry]
  · simp [logout, logoutTry]
  · simp [logout, logoutTry, Run.threw]
  · simp [logout, logoutTry]
  · cases sessionValid <;> simp [serverLogout, logout, logoutTry, Run.threw]
  · cases sessionValid <;> simp [serverLogout, logout, logoutTry, Run.threw]
  · cases sessionValid <;> simp [serverLogout, logout, logoutTry]
  · cases sessionValid <;> simp [serverLogout, logout, logoutTry]
  · cases reply <;> simp [logout, logoutTry, logoutCatch]

/-- C8: `checkAuth` never throws; a resolved `/auth/me` request stores the returned
projection in `user` and returns `true`, a rejected one stores `null` and returns
`false`; so afterwards `user` is non-null exactly when `true` was returned with a
non-null projection. -/
theorem checkAuth_total (reply : HttpResult (Option UserProjection)) (s : AuthState) :
    (checkAuth reply s).threw = false ∧
    (∀ data, reply = .resolved data →
      (checkAuth reply s).state.user = data ∧ (checkAuth reply s).result = .ok true) ∧
    (∀ err, reply = .rejected err →
      (checkAuth reply s).state.user = none ∧ (checkAuth reply s).result = .ok false) ∧
    ((checkAuth reply s).state.user ≠ none ↔
      (checkAuth reply s).result = .ok true ∧ ∃ u, reply = .resolved (some u)) := by
  refine ⟨?_, ?_, ?_, ?_⟩
  · cases reply <;> simp [checkAuth, Run.threw]
  · rintro data rfl
    simp [checkAuth]
  · rintro err rfl
    simp [checkAuth]
  · cases reply with
    | resolved data => cases data <;> simp [checkAuth]
    | rejected err => simp [checkAuth]

/-- Witness of C8: a valid session and an expired one. -/
theorem checkAuth_total_witness :
    (checkAuth (.resolved (some ⟨"1", "ann", "ann@x.org"⟩)) AuthState.initial).state.user =
      some ⟨"1", "ann", "ann@x.org"⟩ ∧
    (checkAuth (.rejected ⟨some "Request failed", some "Unauthenticated"⟩)
      { user := some ⟨"1", "ann", "ann@x.org"⟩, loading := false, error := none,
        isInitialized := true }).state.user = none :=
  ⟨((checkAuth_total (.resolved (some ⟨"1", "ann", "ann@x.org"⟩)) AuthState.initial).2.1
      (some ⟨"1", "ann", "ann@x.org"⟩) rfl).1,
   ((checkAuth_total (.rejected ⟨some "Request failed", some "Unauthenticated"⟩)
      { user := some ⟨"1", "ann", "ann@x.org"⟩, loading := false, error := none,
        isInitialized := true }).2.2.1
      ⟨some "Request failed", some "Unauthenticated"⟩ rfl).1⟩

/-! ## Theorems: Dashboard -/

/-- C9: `totalIncome` is the sum of the amounts of all income records, `totalExpenses`
the sum of the amounts of all expense records, `totalSavings` their difference, and both
sums are 0 on empty lists. -/
theorem dashboard_totals (incomes : List Income) (expenses : List Expense) :
    totalIncome incomes = (incomes.map fun income => income.amount).sum ∧
    totalExpenses expenses = (expenses.map fun expense => expense.amount).sum ∧
    totalSavings incomes expenses = totalIncome incomes - totalExpenses expenses ∧
    totalIncome [] = 0 ∧ totalExpenses [] = 0 := by
  refine ⟨?_, ?_, rfl, rfl, rfl⟩
  · simp [totalIncome, foldl_add_eq_sum]
  · simp [totalExpenses, foldl_add_eq_sum]

theorem find?_eq_head?_filter {α : Type} (p : α → Bool) (l : List α) :
    l.find? p = (l.filter p).head? := by
  induction l with
  | nil => rfl
  | cons x xs ih =>
    cases h : p x
    · rw [List.find?_cons_of_neg _ (by simp [h]), List.filter_cons_of_neg (by simp [h]), ih]
    · rw [List.find?_cons_of_pos _ h, List.filter_cons_of_pos h]
      rfl

theorem numOrZero_some (v : ℚ) : numOrZero (some v) = v := by
  unfold numOrZero
  by_cases h : v = 0 <;> simp [h]

theorem months_getD_injective :
    ∀ a b : Fin 12, months.getD a.val "" = months.getD b.val "" → a = b := by
  decide

theorem toLocaleMonthLong_eq_iff (d : JsDate) (k : Fin 12) :
    toLocaleMonthLong d = months.getD k.val "" ↔ d.month = k :=
  ⟨fun h => months_getD_injective d.month k h, fun h => by rw [toLocaleMonthLong, h]⟩

/-- C11, as stated, fails: with two income records for March 2024, of 1000 and of 500,
`monthlyData.income` is 1000, the amount of the first one, and not the total 1500. -/
theorem monthlyIncome_counterexample :
    (monthlyData [⟨"i1", 1000, "March", 2024, false⟩, ⟨"i2", 500, "March", 2024, false⟩] []
        "March" 2024).income = 1000 ∧
    (([⟨"i1", 1000, "March", 2024, false⟩, ⟨"i2", 500, "March", 2024, false⟩].filter
        fun i : Income => i.month == "March" && i.year == 2024).map fun i => i.amount).sum
      = 1500 ∧
    (monthlyData [⟨"i1", 1000, "March", 2024, false⟩, ⟨"i2", 500, "March", 2024, false⟩] []
        "March" 2024).income ≠
      (([⟨"i1", 1000, "March", 2024, false⟩, ⟨"i2", 500, "March", 2024, false⟩].filter
        fun i : Income => i.month == "March" && i.year == 2024).map fun i => i.amount).sum := by
  refine ⟨?_, ?_, ?_⟩
  · simp [monthlyData, numOrZero]
  · norm_num
  · simp [monthlyData, numOrZero]

/-- C11 (amended): `monthlyData.income` is the amount of the first income record, in
list order, whose month and year both equal the selected ones, and 0 when no record
matches; it is the total of the matching amounts when at most one record matches; and
the records that do not match on both fields contribute nothing. -/
theorem monthlyIncome_first_match (incomes : List Income) (expenses : List Expense)
    (selectedMonth : String) (selectedYear : Int) :
    (monthlyData incomes expenses selectedMonth selectedYear).income =
      (match (incomes.filter fun i =>
          i.month == selectedMonth && i.year == selectedYear).head? with
        | some i => i.amount
        | none => 0) ∧
    ((incomes.filter fun i => i.month == selectedMonth && i.year == selectedYear) = [] →
      (monthlyData incomes expenses selectedMonth selectedYear).income = 0) ∧
    ((incomes.filter fun i =>
        i.month == selectedMonth && i.year == selectedYear).length ≤ 1 →
      (monthlyData incomes expenses selectedMonth selectedYear).income =
        ((incomes.filter fun i =>
          i.month == selectedMonth && i.year == selectedYear).map fun i => i.amount).sum) ∧
    (monthlyData incomes expenses selectedMonth selectedYear).income =
      (monthlyData
        (incomes.filter fun i => i.month == selectedMonth && i.year == selectedYear)
        expenses selectedMonth selectedYear).income := by
  have key : ∀ l : List Income,
      (monthlyData l expenses selectedMonth selectedYear).income =
        (match (l.filter fun i => i.month == selectedMonth && i.year == selectedYear).head? with
          | some i => i.amount
          | none => 0) := by
    intro l
    simp only [monthlyData, find?_eq_head?_filter]
    cases (l.filter fun i => i.month == selectedMonth && i.year == selectedYear).head? with
    | none => rfl
    | some i => simp [numOrZero_some]
  refine ⟨key incomes, ?_, ?_, ?_⟩
  · intro h
    rw [key, h]
    rfl
  · intro h
    rw [key]
    generalize (incomes.filter fun i =>
      i.month == selectedMonth && i.year == selectedYear) = matching at h
    match matching, h with
    | [], _ => simp
    | [i], _ => simp
    | _ :: _ :: _, h => simp at h
  · rw [key incomes, key, List.filter_filter]
    simp

/-- Witness of C11 (amended): one matching record among records that match only the
month or only the year. -/
theorem monthlyIncome_first_match_witness :
    (monthlyData [⟨"i1", 700, "March", 2023, false⟩, ⟨"i2", 800, "April", 2024, false⟩,
        ⟨"i3", 1000, "March", 2024, false⟩] [] "March" 2024).income =
      (([⟨"i1", 700, "March", 2023, false⟩, ⟨"i2", 800, "April", 2024, false⟩,
        ⟨"i3", 1000, "March", 2024, false⟩].filter
          fun i : Income => i.month == "March" && i.year == 2024).map fun i => i.amount).sum ∧
    (monthlyData [⟨"i1", 700, "March", 2023, false⟩] [] "March" 2024).income = 0 :=
  ⟨(monthlyIncome_first_match [⟨"i1", 700, "March", 2023, false⟩,
      ⟨"i2", 800, "April", 2024, false⟩, ⟨"i3", 1000, "March", 2024, false⟩] []
      "March" 2024).2.2.1 (by simp),
   (monthlyIncome_first_match [⟨"i1", 700, "March", 2023, false⟩] []
      "March" 2024).2.1 (by simp)⟩

theorem isWhiteSpace_false_of_valid_head (c : Char)
    (h : c = '-' ∨ c = '.' ∨ isAsciiDigit c = true) : isWhiteSpace c = false := by
  rcases h with h | h | h
  · subst h; decide
  · subst h; decide
  · unfold isAsciiDigit at h
    simp only [Bool.and_eq_true, decide_eq_true_eq] at h
    simp [isWhiteSpace]
    omega

theorem validUnsignedNumber_head (c : Char) (t : List Char)
    (h : validUnsignedNumber (c :: t) = true) : c = '.' ∨ isAsciiDigit c = true := by
  by_cases hd : isAsciiDigit c = true
  · exact Or.inr hd
  · left
    have hd' : isAsciiDigit c = false := by simpa using hd
    unfold validUnsignedNumber at h
    simp only [List.dropWhile_cons, hd', List.takeWhile_cons] at h
    by_contra hc
    split at h
    · rename_i r heq
      simp at heq
      exact hc heq.1
    · simp at h

theorem unsignedDecimalValue_of_valid (cs : List Char)
    (h : validUnsignedNumber cs = true) : ∃ q, unsignedDecimalValue cs = .num q := by
  have hI : cs.take 8 ≠ ['I', 'n', 'f', 'i', 'n', 'i', 't', 'y'] := by
    intro h8
    cases cs with
    | nil => simp at h8
    | cons c t =>
      have hc : c = 'I' := by
        simp only [List.take_succ_cons, List.cons.injEq] at h8
        exact h8.1
      rcases validUnsignedNumber_head c t h with h1 | h1
      · rw [hc] at h1; revert h1; decide
      · rw [hc] at h1; revert h1; decide
  unfold unsignedDecimalValue
  rw [if_neg hI]
  unfold validUnsignedNumber at h
  split at h
  · rename_i r heq
    simp only [heq]
    have hf : r.takeWhile isAsciiDigit ≠ [] := by
      simp only [Bool.and_eq_true] at h
      simpa using h.1
    rw [if_neg (fun hh => hf hh.2)]
    exact ⟨_, rfl⟩
  · have hi : cs.takeWhile isAsciiDigit ≠ [] := by
      simp only [Bool.and_eq_true] at h
      simpa using h.1
    simp only []
    rw [if_neg (fun hh => hi hh.1)]
    exact ⟨_, rfl⟩

theorem parseFloat_of_valid (s : String) (h : validFloatingPointNumber s = true) :
    ∃ q, parseFloat s = .num q := by
  unfold validFloatingPointNumber at h
  unfold parseFloat
  cases hs : s.data with
  | nil => rw [hs] at h; simp [validUnsignedNumber, validExponent] at h
  | cons c t =>
    rw [hs] at h
    by_cases hm : c = '-'
    · subst hm
      simp only at h
      have hw : isWhiteSpace '-' = false := by decide
      simp only [List.dropWhile_cons, hw]
      obtain ⟨q, hq⟩ := unsignedDecimalValue_of_valid t h
      exact ⟨-q, by simp [hq, JsNumber.negate]⟩
    · have h' : validUnsignedNumber (c :: t) = true := by
        split at h
        · rename_i cs heq
          simp at heq
          exact absurd heq.1 hm
        · exact h
      have hw : isWhiteSpace c = false :=
        isWhiteSpace_false_of_valid_head c (Or.inr (validUnsignedNumber_head c t h'))
      have hp : c ≠ '+' := by
        rintro rfl
        rcases validUnsignedNumber_head _ t h' with h1 | h1
        · revert h1; decide
        · revert h1; decide
      simp only [List.dropWhile_cons, hw]
      split
      · rename_i cs heq
        simp at heq
        exact absurd heq.1 hm
      · rename_i cs heq
        simp at heq
        exact absurd heq.1 hp
      · exact unsignedDecimalValue_of_valid (c :: t) h'

/-- C15: the row of an income record offers a Lock button, the only action of the row,
exactly when `isLocked` is false, and the button is for the id of that record; on a
locked record no click can invoke `lockIncome`, no action of the row leads anywhere, and
whatever `lockIncome` does to a record, every record reached from a locked record by
actions of the row is that same locked record.  On an unlocked record with the button
enabled the click invokes `lockIncome` on its id; while `loading` the button is disabled
and no click invokes `lockIncome`. -/
theorem lock_is_terminal (effect : Income → Income) (reply : HttpResult Unit)
    (f : FormState) (loading : Bool) (income : Income) :
    (actionsCell loading income ≠ [] ↔ income.isLocked = false) ∧
    (∀ b ∈ actionsCell loading income, b.incomeId = income.id) ∧
    (income.isLocked = true → lockIncomeCallsOfRow reply f loading income = []) ∧
    (income.isLocked = true → ∀ next, ¬ RowStep effect income next) ∧
    (income.isLocked = true → ∀ next, RowReach effect income next →
      next = income ∧ next.isLocked = true) ∧
    (income.isLocked = false →
      lockIncomeCallsOfRow reply f false income = [income.id]) ∧
    lockIncomeCallsOfRow reply f true income = [] := by
  have hstep : income.isLocked = true → ∀ next, ¬ RowStep effect income next := by
    intro hl next hs
    cases hs with
    | click l _ b hb _ => simp [actionsCell, hl] at hb
  refine ⟨?_, ?_, ?_, hstep, ?_, ?_, ?_⟩
  · cases h : income.isLocked <;> simp [actionsCell, h]
  · intro b hb
    cases h : income.isLocked <;> simp [actionsCell, h] at hb
    rw [hb]
  · intro hl
    simp [lockIncomeCallsOfRow, actionsCell, hl]
  · intro hl next hr
    induction hr with
    | refl => exact ⟨rfl, hl⟩
    | step b c _ hbc ih =>
      obtain ⟨hb, _⟩ := ih
      subst hb
      exact absurd hbc (hstep hl c)
  · intro hl
    cases reply <;> simp [lockIncomeCallsOfRow, actionsCell, hl, clickLock, handleLock]
  · cases h : income.isLocked <;> simp [lockIncomeCallsOfRow, actionsCell, h, clickLock]

/-- Witness of C15: a locked record and an unlocked one. -/
theorem lock_is_terminal_witness :
    lockIncomeCallsOfRow (.resolved ()) ⟨"", "", "2024"⟩ false
      ⟨"i1", 1000, "March", 2024, true⟩ = [] ∧
    lockIncomeCallsOfRow (.resolved ()) ⟨"", "", "2024"⟩ false
      ⟨"i2", 1000, "April", 2024, false⟩ = ["i2"] :=
  ⟨(lock_is_terminal id (.resolved ()) ⟨"", "", "2024"⟩ false
      ⟨"i1", 1000, "March", 2024, true⟩).2.2.1 rfl,
   (lock_is_terminal id (.resolved ()) ⟨"", "", "2024"⟩ false
      ⟨"i2", 1000, "April", 2024, false⟩).2.2.2.2.2.1 rfl⟩

/-- C16, as stated, fails: the form states with amount text `-5` and `0`, month March
and year 2024 satisfy the constraints of the form, and `handleSubmit` applies `addIncome`
to the amounts -5 and 0. -/
theorem handleSubmit_counterexample :
    formConstraints ⟨"-5", "March", "2024"⟩ = true ∧
    (handleSubmit (.resolved ()) ⟨"-5", "March", "2024"⟩).addIncomeCalls =
      [{ amount := .num (-5), month := "March", year := .num 2024 }] ∧
    formConstraints ⟨"0", "March", "2024"⟩ = true ∧
    (handleSubmit (.resolved ()) ⟨"0", "March", "2024"⟩).addIncomeCalls =
      [{ amount := .num 0, month := "March", year := .num 2024 }] := by
  refine ⟨by decide, ?_, by decide, ?_⟩
  · simp [handleSubmit, parseFloat, parseInt, unsignedDecimalValue, prefixedIntegerValue,
      unsignedIntegerValue, radixDigit, JsNumber.negate, exponentValue, decimalValue,
      isWhiteSpace, isAsciiDigit]
  · simp [handleSubmit, parseFloat, parseInt, unsignedDecimalValue, prefixedIntegerValue,
      unsignedIntegerValue, radixDigit, JsNumber.negate, exponentValue, decimalValue,
      isWhiteSpace, isAsciiDigit]

/-- C16 (amended): `handleSubmit` checks nothing itself: for every form state it applies
`addIncome` once, to `parseFloat(amount)`, `month` and `parseInt(year)`; and for every
form state that satisfies the constraints of the form the month is one of the twelve
month names and the amount is a number (not `NaN`). -/
theorem handleSubmit_applies_addIncome (reply : HttpResult Unit) (f : FormState) :
    (handleSubmit reply f).addIncomeCalls =
      [{ amount := parseFloat f.amount, month := f.month, year := parseInt f.year }] ∧
    (formConstraints f = true → f.month ∈ months ∧ ∃ q, parseFloat f.amount = .num q) := by
  constructor
  · cases reply <;> rfl
  · intro h
    unfold formConstraints at h
    simp only [Bool.and_eq_true] at h
    exact ⟨by simpa using h.1.2, parseFloat_of_valid f.amount h.1.1⟩

/-- Witness of C16 (amended): the form state `12.5`, March, 2024. -/
theorem handleSubmit_applies_addIncome_witness :
    "March" ∈ months ∧ ∃ q, parseFloat "12.5" = .num q :=
  (handleSubmit_applies_addIncome (.resolved ()) ⟨"12.5", "March", "2024"⟩).2 (by decide)

/-! ## Theorems: server middleware and route guards -/

/-- C19: the response of the error-handling middleware is the same for any two errors:
status 500 with body `{message: 'Something went wrong!'}`; the stack of the error goes
to the console only. -/
theorem errorMiddleware_generic (e₁ e₂ : ServerError) :
    (errorMiddleware e₁).response = (errorMiddleware e₂).response ∧
    (errorMiddleware e₁).response =
      { status := 500, body := [("message", "Something went wrong!")] } ∧
    (errorMiddleware e₁).console = [e₁.stack] :=
  ⟨rfl, rfl, rfl⟩

/-- C20: for every value of `user`, `Dashboard` redirects to `/auth` exactly when `user`
is null and `AuthPages` redirects to `/dashboard` exactly when `user` is non-null;
so exactly one of the two guards fires, and the page a guard redirects to does not
redirect again. -/
theorem route_guards (user : Option UserProjection) :
    (dashboardGuard user = some "/auth" ↔ user = none) ∧
    (dashboardGuard user = none ↔ user ≠ none) ∧
    (authPagesGuard user = some "/dashboard" ↔ user ≠ none) ∧
    (authPagesGuard user = none ↔ user = none) ∧
    ((dashboardGuard user).isSome != (authPagesGuard user).isSome) = true ∧
    (∀ target, dashboardGuard user = some target → routeRedirect target user = none) ∧
    (∀ target, authPagesGuard user = some target → routeRedirect target user = none) := by
  cases user with
  | none =>
    simp [dashboardGuard, authPagesGuard, routeRedirect]
  | some u =>
    simp [dashboardGuard, authPagesGuard, routeRedirect]

/-- Witness of C20: logged out on the dashboard, logged in on the auth page. -/
theorem route_guards_witness :
    routeRedirect "/auth" none = none ∧
    routeRedirect "/dashboard" (some ⟨"1", "ann", "ann@x.org"⟩) = none :=
  ⟨(route_guards none).2.2.2.2.2.1 "/auth" (by decide),
   (route_guards (some ⟨"1", "ann", "ann@x.org"⟩)).2.2.2.2.2.2 "/dashboard" (by decide)⟩

/-! ## Theorems: migration of existing users -/

theorem string_append_right_cancel (a b t : String) (h : a ++ t = b ++ t) : a = b := by
  apply String.ext
  have := congrArg String.data h
  simpa using this

theorem includesAt_temporary (username : String) :
    includesAt (username ++ "@temporary.com") = true := by
  have : "@temporary.com".data = '@' :: "temporary.com".data := rfl
  simp [includesAt, this]

theorem saveDocument_map_id (store : List User) (u : User) :
    (saveDocument store u).map (fun d => d.id) = store.map fun d => d.id := by
  unfold saveDocument
  rw [List.map_map]
  apply List.map_congr_left
  intro d _
  by_cases h : d.id = u.id <;> simp [h]

theorem migrateLoop_spec (saveOk : List User → User → Bool) (us : List User) :
    ∀ store : List User, (∀ u ∈ us, u ∈ store) → (us.map fun u => u.id).Nodup →
      (store.map fun d => d.id).Nodup →
      ∃ done rest : List User, us = done ++ rest ∧
        (migrateLoop saveOk us store).1 =
          store.map (fun d => if d.id ∈ done.map (fun u => u.id) then withTemporaryEmail d
            else d) ∧
        ((migrateLoop saveOk us store).2 = true → rest = []) := by
  induction us with
  | nil =>
    intro store _ _ _
    exact ⟨[], [], rfl, by simp [migrateLoop], fun _ => rfl⟩
  | cons u us ih =>
    intro store hmem hus hid
    have hu : u ∈ store := hmem u (List.mem_cons_self _ _)
    rw [List.map_cons, List.nodup_cons] at hus
    by_cases hs : saveOk store (withTemporaryEmail u) = true
    · have hmem' : ∀ v ∈ us, v ∈ saveDocument store (withTemporaryEmail u) := by
        intro v hv
        have hvs : v ∈ store := hmem v (List.mem_cons_of_mem _ hv)
        have hne : v.id ≠ u.id := fun h => hus.1 (h ▸ List.mem_map_of_mem _ hv)
        unfold saveDocument
        refine List.mem_map.mpr ⟨v, hvs, ?_⟩
        have : ¬ v.id = (withTemporaryEmail u).id := hne
        simp [this]
      have hid' : ((saveDocument store (withTemporaryEmail u)).map fun d => d.id).Nodup := by
        rw [saveDocument_map_id]; exact hid
      obtain ⟨done, rest, hsplit, hstore, hrest⟩ :=
        ih (saveDocument store (withTemporaryEmail u)) hmem' hus.2 hid'
      refine ⟨u :: done, rest, by rw [hsplit]; rfl, ?_, ?_⟩
      · rw [migrateLoop, if_pos hs, hstore]
        unfold saveDocument
        rw [List.map_map]
        apply List.map_congr_left
        intro d hd
        by_cases hdu : d.id = u.id
        · have hdeq : d = u := List.inj_on_of_nodup_map hid hd hu hdu
          subst hdeq
          simp [withTemporaryEmail]
        · have hd' : ¬ d.id = (withTemporaryEmail u).id := hdu
          simp [hdu, hd']
      · intro h
        rw [migrateLoop, if_pos hs] at h
        exact hrest h
    · refine ⟨[], u :: us, rfl, ?_, ?_⟩
      · rw [migrateLoop, if_neg hs]
        simp
      · intro h
        rw [migrateLoop, if_neg hs] at h
        simp at h

theorem findWithoutEmail_ids_nodup (store : List User)
    (hid : (store.map fun d => d.id).Nodup) :
    ((findWithoutEmail store).map fun u => u.id).Nodup :=
  List.Nodup.sublist (List.Sublist.map _ (List.filter_sublist _)) hid

theorem migrateExistingUsers_spec (findOk : Bool) (saveOk : List User → User → Bool)
    (store : List User) (hid : (store.map fun d => d.id).Nodup) :
    ∃ done rest : List User, findWithoutEmail store = done ++ rest ∧
      (migrateExistingUsers findOk saveOk store).store =
        store.map (fun d => if d.id ∈ done.map (fun u => u.id) then withTemporaryEmail d
          else d) ∧
      ((migrateExistingUsers findOk saveOk store).failed = false → rest = []) := by
  cases findOk with
  | false =>
    refine ⟨[], findWithoutEmail store, rfl, by simp [migrateExistingUsers], ?_⟩
    intro h
    simp [migrateExistingUsers, MigrationRun.failed] at h
  | true =>
    by_cases hlen : (findWithoutEmail store).length > 0
    · obtain ⟨done, rest, hsplit, hstore, hrest⟩ :=
        migrateLoop_spec saveOk (findWithoutEmail store) store
          (fun u hu => (List.mem_filter.mp hu).1) (findWithoutEmail_ids_nodup store hid) hid
      refine ⟨done, rest, hsplit, ?_, ?_⟩
      · simp only [migrateExistingUsers, if_true, if_pos hlen]
        rw [← hstore]
        split <;> rename_i heq <;> simp [heq]
      · intro h
        apply hrest
        simp only [migrateExistingUsers, if_true, if_pos hlen] at h
        split at h
        · rename_i heq; simp [heq]
        · simp [MigrationRun.failed] at h
    · have hnil : findWithoutEmail store = [] := by
        cases hf : findWithoutEmail store with
        | nil => rfl
        | cons a l => rw [hf] at hlen; simp at hlen
      refine ⟨[], [], by rw [hnil]; rfl, ?_, fun _ => rfl⟩
      simp [migrateExistingUsers, hnil]

theorem mem_done_email_none (store done rest : List User)
    (hid : (store.map fun d => d.id).Nodup) (hsplit : findWithoutEmail store = done ++ rest)
    (a : User) (ha : a ∈ store) (hD : a.id ∈ done.map fun u => u.id) : a.email = none := by
  obtain ⟨u, hu, hua⟩ := List.mem_map.mp hD
  have hu' : u ∈ findWithoutEmail store := by rw [hsplit]; exact List.mem_append_left _ hu
  unfold findWithoutEmail at hu'
  rw [List.mem_filter] at hu'
  have : u = a := List.inj_on_of_nodup_map hid hu'.1 ha hua
  rw [← this]
  simpa using hu'.2

theorem saveDocument_emailsDistinct (store : List User) (u : User)
    (hid : (store.map fun d => d.id).Nodup) (he : emailsDistinct store)
    (hfree : ∀ d ∈ store, d.id ≠ u.id → d.email ≠ u.email) :
    emailsDistinct (saveDocument store u) := by
  unfold emailsDistinct saveDocument at *
  rw [List.filterMap_map, List.Nodup, List.pairwise_filterMap]
  have p1 := List.pairwise_map.mp hid
  have p2 := List.pairwise_filterMap.mp he
  refine (p1.and p2).imp_of_mem ?_
  intro a b ha hb hab x hx y hy hxy
  obtain ⟨hne, hem⟩ := hab
  simp only [Function.comp, Option.mem_def] at hx hy
  subst hxy
  by_cases h1 : a.id = u.id
  · have h2 : ¬ b.id = u.id := fun h => hne (h1.trans h.symm)
    simp only [h1, h2, if_true, if_false] at hx hy
    exact hfree b hb h2 (hy.trans hx.symm)
  · by_cases h2 : b.id = u.id
    · simp only [h1, h2, if_true, if_false] at hx hy
      exact hfree a ha h1 (hx.trans hy.symm)
    · simp only [h1, h2, if_false] at hx hy
      exact hem x hx x hy rfl

theorem migrateLoop_emailsDistinct (saveOk : List User → User → Bool)
    (hsave : ∀ st u, saveOk st u = true → ∀ d ∈ st, d.id ≠ u.id → d.email ≠ u.email)
    (us : List User) :
    ∀ store : List User, (store.map fun d => d.id).Nodup → emailsDistinct store →
      emailsDistinct (migrateLoop saveOk us store).1 := by
  induction us with
  | nil => intro store _ he; simpa [migrateLoop] using he
  | cons u us ih =>
    intro store hid he
    by_cases hs : saveOk store (withTemporaryEmail u) = true
    · rw [migrateLoop, if_pos hs]
      apply ih
      · rw [saveDocument_map_id]; exact hid
      · exact saveDocument_emailsDistinct store _ hid he (hsave store _ hs)
    · rw [migrateLoop, if_neg hs]
      exact he

theorem migrateExistingUsers_store_eq (findOk : Bool) (saveOk : List User → User → Bool)
    (store : List User) :
    (migrateExistingUsers findOk saveOk store).store = store ∨
    (migrateExistingUsers findOk saveOk store).store =
      (migrateLoop saveOk (findWithoutEmail store) store).1 := by
  cases findOk with
  | false => left; simp [migrateExistingUsers]
  | true =>
    by_cases hlen : (findWithoutEmail store).length > 0
    · right
      simp only [migrateExistingUsers, if_true, if_pos hlen]
      split <;> rename_i heq <;> simp [heq]
    · left
      simp [migrateExistingUsers, hlen]

/-- C17: when the migration does not fail (the find and every save succeed), in a store
whose documents have distinct ids, every user without an email gets the email
`username@temporary.com`, which contains an `@`, with every other field unchanged, every
user with an email is unchanged, no user is created or deleted, and afterwards no user
lacks an email. -/
theorem migration_fills_missing_email (findOk : Bool) (saveOk : List User → User → Bool)
    (store : List User) (hid : (store.map fun d => d.id).Nodup)
    (hok : (migrateExistingUsers findOk saveOk store).failed = false) :
    (migrateExistingUsers findOk saveOk store).store =
      store.map (fun u =>
        if u.email = none then { u with email := some (u.username ++ "@temporary.com") }
        else u) ∧
    (migrateExistingUsers findOk saveOk store).store.length = store.length ∧
    ((migrateExistingUsers findOk saveOk store).store.map fun u => u.id) =
      (store.map fun u => u.id) ∧
    (∀ u ∈ store, u.email ≠ none → u ∈ (migrateExistingUsers findOk saveOk store).store) ∧
    (∀ u ∈ (migrateExistingUsers findOk saveOk store).store, u.email ≠ none) ∧
    (∀ username : String, includesAt (username ++ "@temporary.com") = true) := by
  obtain ⟨done, rest, hsplit, hstore, hrest⟩ :=
    migrateExistingUsers_spec findOk saveOk store hid
  have hr := hrest hok
  subst hr
  rw [List.append_nil] at hsplit
  have hmain : (migrateExistingUsers findOk saveOk store).store =
      store.map (fun u =>
        if u.email = none then { u with email := some (u.username ++ "@temporary.com") }
        else u) := by
    rw [hstore]
    apply List.map_congr_left
    intro d hd
    by_cases he : d.email = none
    · have : d.id ∈ done.map fun u => u.id := by
        rw [← hsplit]
        exact List.mem_map_of_mem _ (List.mem_filter.mpr ⟨hd, by simp [he]⟩)
      simp [this, he, withTemporaryEmail]
    · have : ¬ d.id ∈ done.map fun u => u.id := fun h =>
        he (mem_done_email_none store done [] hid (by simpa using hsplit) d hd h)
      simp [this, he]
  refine ⟨hmain, ?_, ?_, ?_, ?_, includesAt_temporary⟩
  · rw [hmain, List.length_map]
  · rw [hmain, List.map_map]
    apply List.map_congr_left
    intro d _
    by_cases he : d.email = none <;> simp [he]
  · intro u hu he
    rw [hmain]
    exact List.mem_map.mpr ⟨u, hu, by simp [he]⟩
  · intro u hu
    rw [hmain] at hu
    obtain ⟨d, _, hdu⟩ := List.mem_map.mp hu
    by_cases he : d.email = none
    · simp [he] at hdu
      rw [← hdu]
      simp
    · simp [he] at hdu
      rw [← hdu]
      exact he

/-- Witness of C17: a store with one user without an email and one with an email, and
saves that all succeed. -/
theorem migration_fills_missing_email_witness :
    (migrateExistingUsers true (fun _ _ => true)
        [⟨"1", "bob", none, "h1", "2023"⟩,
         ⟨"2", "ann", some "ann@x.org", "h2", "2024"⟩]).store =
      [⟨"1", "bob", some "bob@temporary.com", "h1", "2023"⟩,
       ⟨"2", "ann", some "ann@x.org", "h2", "2024"⟩] := by
  have h := (migration_fills_missing_email true (fun _ _ => true)
    [⟨"1", "bob", none, "h1", "2023"⟩, ⟨"2", "ann", some "ann@x.org", "h2", "2024"⟩]
    (by decide) (by decide)).1
  rw [h]
  decide

/-- C18, as stated, fails: in a store with distinct usernames and distinct emails where
one user already holds the email `bob@temporary.com` and the user `bob` has no email, a
migration whose saves succeed leaves two users with the same email. -/
theorem migration_uniqueness_counterexample :
    usernamesDistinct [⟨"1", "bob", none, "h1", "2023"⟩,
      ⟨"2", "alice", some "bob@temporary.com", "h2", "2024"⟩] ∧
    emailsDistinct [⟨"1", "bob", none, "h1", "2023"⟩,
      ⟨"2", "alice", some "bob@temporary.com", "h2", "2024"⟩] ∧
    (migrateExistingUsers true (fun _ _ => true)
        [⟨"1", "bob", none, "h1", "2023"⟩,
         ⟨"2", "alice", some "bob@temporary.com", "h2", "2024"⟩]).store =
      [⟨"1", "bob", some "bob@temporary.com", "h1", "2023"⟩,
       ⟨"2", "alice", some "bob@temporary.com", "h2", "2024"⟩] ∧
    ¬ emailsDistinct (migrateExistingUsers true (fun _ _ => true)
        [⟨"1", "bob", none, "h1", "2023"⟩,
         ⟨"2", "alice", some "bob@temporary.com", "h2", "2024"⟩]).store := by
  refine ⟨?_, ?_, ?_, ?_⟩
  · unfold usernamesDistinct; decide
  · unfold emailsDistinct; decide
  · decide
  · unfold emailsDistinct; decide

/-- C18 (amended): in a store with distinct ids, distinct usernames and distinct emails,
after the migration the usernames are still pairwise distinct; the emails are still
pairwise distinct when no user holds the email `username@temporary.com` of a user
without an email, and also when the store rejects every save of an email that another
user holds. -/
theorem migration_keeps_uniqueness (findOk : Bool) (saveOk : List User → User → Bool)
    (store : List User) (hid : (store.map fun d => d.id).Nodup)
    (hu : usernamesDistinct store) (he : emailsDistinct store) :
    usernamesDistinct (migrateExistingUsers findOk saveOk store).store ∧
    ((∀ u ∈ store, ∀ v ∈ store, u.email = none →
        v.email ≠ some (u.username ++ "@temporary.com")) →
      emailsDistinct (migrateExistingUsers findOk saveOk store).store) ∧
    ((∀ st u, saveOk st u = true → ∀ d ∈ st, d.id ≠ u.id → d.email ≠ u.email) →
      emailsDistinct (migrateExistingUsers findOk saveOk store).store) := by
  obtain ⟨done, rest, hsplit, hstore, -⟩ :=
    migrateExistingUsers_spec findOk saveOk store hid
  refine ⟨?_, ?_, ?_⟩
  · unfold usernamesDistinct at *
    rw [hstore, List.map_map]
    have : (store.map ((fun u : User => u.username) ∘ fun d =>
        if d.id ∈ done.map (fun u => u.id) then withTemporaryEmail d else d)) =
        store.map fun u => u.username := by
      apply List.map_congr_left
      intro d _
      simp only [Function.comp]
      split <;> rfl
    rw [this]
    exact hu
  · intro hfree
    unfold emailsDistinct usernamesDistinct at *
    rw [hstore, List.filterMap_map, List.Nodup, List.pairwise_filterMap]
    have p1 := List.pairwise_map.mp hu
    have p2 := List.pairwise_filterMap.mp he
    refine (p1.and p2).imp_of_mem ?_
    intro a b ha hb hab x hx y hy hxy
    obtain ⟨hne, hem⟩ := hab
    simp only [Function.comp, Option.mem_def] at hx hy
    subst hxy
    by_cases h1 : a.id ∈ done.map fun u => u.id
    · have ha0 := mem_done_email_none store done rest hid hsplit a ha h1
      by_cases h2 : b.id ∈ done.map fun u => u.id
      · simp only [h1, h2, if_true, withTemporaryEmail, Option.some.injEq] at hx hy
        exact hne (string_append_right_cancel _ _ _ (hx.trans hy.symm))
      · simp only [h1, h2, if_true, if_false, withTemporaryEmail, Option.some.injEq] at hx hy
        exact hfree a ha b hb ha0 (by rw [hy, hx])
    · by_cases h2 : b.id ∈ done.map fun u => u.id
      · have hb0 := mem_done_email_none store done rest hid hsplit b hb h2
        simp only [h1, h2, if_true, if_false, withTemporaryEmail, Option.some.injEq] at hx hy
        exact hfree b hb a ha hb0 (by rw [hx, hy])
      · simp only [h1, h2, if_false] at hx hy
        exact hem x hx x hy rfl
  · intro hsave
    rcases migrateExistingUsers_store_eq findOk saveOk store with h | h
    · rw [h]; exact he
    · rw [h]; exact migrateLoop_emailsDistinct saveOk hsave _ store hid he

/-- Witness of C18 (amended): two users without an email and one with an email of
another domain, and saves that all succeed. -/
theorem migration_keeps_uniqueness_witness :
    usernamesDistinct (migrateExistingUsers true (fun _ _ => true)
      [⟨"1", "bob", none, "h1", "2023"⟩, ⟨"2", "ann", some "ann@x.org", "h2", "2024"⟩,
       ⟨"3", "cy", none, "h3", "2024"⟩]).store ∧
    emailsDistinct (migrateExistingUsers true (fun _ _ => true)
      [⟨"1", "bob", none, "h1", "2023"⟩, ⟨"2", "ann", some "ann@x.org", "h2", "2024"⟩,
       ⟨"3", "cy", none, "h3", "2024"⟩]).store :=
  have h := migration_keeps_uniqueness true (fun _ _ => true)
    [⟨"1", "bob", none, "h1", "2023"⟩, ⟨"2", "ann", some "ann@x.org", "h2", "2024"⟩,
     ⟨"3", "cy", none, "h3", "2024"⟩]
    (by decide) (by unfold usernamesDistinct; decide) (by unfold emailsDistinct; decide)
  ⟨h.1, h.2.1 (by decide)⟩

/-! ## Theorems: reporting of failures -/

/-- C14, as stated, fails: a rejected `lockIncome`, a rejected `addIncome` and a failing
`user.save()` or `User.find` leave `handleLock`, `handleSubmit` and
`migrateExistingUsers` returning normally, with the result they have on success; the
failure is only written to the console. -/
theorem swallowed_failure_counterexample :
    (handleLock (.rejected ⟨some "Request failed", some "Income not found"⟩)
        ⟨"", "", "2024"⟩ "i1").threw = false ∧
    (handleLock (.rejected ⟨some "Request failed", some "Income not found"⟩)
        ⟨"", "", "2024"⟩ "i1").result =
      (handleLock (.resolved ()) ⟨"", "", "2024"⟩ "i1").result ∧
    (handleSubmit (.rejected ⟨some "Network Error", none⟩)
        ⟨"100", "March", "2024"⟩).threw = false ∧
    (handleSubmit (.rejected ⟨some "Network Error", none⟩)
        ⟨"100", "March", "2024"⟩).result =
      (handleSubmit (.resolved ()) ⟨"100", "March", "2024"⟩).result ∧
    (migrateExistingUsers true (fun _ _ => false)
        [⟨"1", "bob", none, "h1", "2023"⟩]).result =
      (migrateExistingUsers true (fun _ _ => true)
        [⟨"1", "bob", none, "h1", "2023"⟩]).result ∧
    (migrateExistingUsers true (fun _ _ => false)
        [⟨"1", "bob", none, "h1", "2023"⟩]).failed = true ∧
    (migrateExistingUsers false (fun _ _ => true)
        [⟨"1", "bob", none, "h1", "2023"⟩]).result = .ok () :=
  ⟨rfl, rfl, rfl, rfl, rfl, by decide, rfl⟩

/-- C14 (amended): `login`, `register` and `logout` report a rejected request by
throwing (`logout` throws the caught error itself) and `checkAuth` by returning `false`
instead of `true`; `handleSubmit`, `handleLock` and `migrateExistingUsers` catch the
failure of the call they make, write it to the console and return normally, as they do
on success: `handleSubmit` then leaves the form as it was, and `migrateExistingUsers`
never throws, whichever of its calls fails. -/
theorem failure_reporting (err : JsError) (s : AuthState)
    (userInput username email password id : String) (data : Option UserProjection)
    (f : FormState) (findOk : Bool) (saveOk : List User → User → Bool)
    (store : List User) :
    (login (.rejected err) s userInput password).threw = true ∧
    (register (.rejected err) s username email password).threw = true ∧
    (logout (.rejected err) s).result = .error err ∧
    (checkAuth (.rejected err) s).result = .ok false ∧
    (checkAuth (.resolved data) s).result = .ok true ∧
    (handleSubmit (.rejected err) f).result = .ok () ∧
    (handleSubmit (.rejected err) f).console = ["Failed to add income:"] ∧
    (handleSubmit (.rejected err) f).form = f ∧
    (handleLock (.rejected err) f id).result = .ok () ∧
    (handleLock (.rejected err) f id).console = ["Failed to lock income:"] ∧
    (migrateExistingUsers findOk saveOk store).result = .ok () ∧
    (migrateExistingUsers false saveOk store).console = [.error "Migration failed:"] ∧
    ((migrateLoop saveOk (findWithoutEmail store) store).2 = false →
      (migrateExistingUsers true saveOk store).failed = true) := by
  refine ⟨?_, ?_, ?_, rfl, rfl, rfl, rfl, rfl, rfl, rfl, ?_, rfl, ?_⟩
  · simp [login, loginTry, loginCatch, Run.threw]
  · unfold register registerTry registerCatch Run.threw
    cases includesAt email <;> by_cases hp : jsLength password < 6 <;> simp [hp]
  · simp [logout, logoutTry, logoutCatch]
  · cases findOk with
    | false => rfl
    | true =>
      by_cases hlen : (findWithoutEmail store).length > 0
      · simp only [migrateExistingUsers, if_true, if_pos hlen]
        split <;> rfl
      · simp [migrateExistingUsers, hlen]
  · intro h
    have hlen : (findWithoutEmail store).length > 0 := by
      cases hf : findWithoutEmail store with
      | nil => rw [hf] at h; simp [migrateLoop] at h
      | cons a l => simp
    simp only [migrateExistingUsers, if_true, if_pos hlen]
    split
    · rename_i heq; rw [heq] at h; simp at h
    · simp [MigrationRun.failed]

/-- Witness of C14 (amended): a migration whose first save fails logs the failure. -/
theorem failure_reporting_witness :
    (migrateExistingUsers true (fun _ _ => false)
      [⟨"1", "bob", none, "h1", "2023"⟩]).failed = true :=
  (failure_reporting ⟨none, none⟩ AuthState.initial "" "" "" "" "" none ⟨"", "", ""⟩ true
    (fun _ _ => false) [⟨"1", "bob", none, "h1", "2023"⟩]).2.2.2.2.2.2.2.2.2.2.2.2 (by decide)

/-! ## Theorems: monthly trend -/

theorem monthNames_get? :
    ∀ k : Fin 12, monthNames.get? k.val = some (monthNames.getD k.val "") := by
  decide

theorem months_prefix_iff :
    ∀ j k : Fin 12,
      jsSubstring (months.getD j.val "") 0 3 = utf16 (monthNames.getD k.val "") ↔ j = k := by
  decide

theorem mem_months_iff (m : String) : m ∈ months ↔ ∃ j : Fin 12, m = months.getD j.val "" := by
  constructor
  · intro h
    simp only [months, List.mem_cons, List.mem_singleton, List.mem_nil_iff, or_false] at h
    rcases h with h | h | h | h | h | h | h | h | h | h | h | h
    · exact ⟨0, h⟩
    · exact ⟨1, h⟩
    · exact ⟨2, h⟩
    · exact ⟨3, h⟩
    · exact ⟨4, h⟩
    · exact ⟨5, h⟩
    · exact ⟨6, h⟩
    · exact ⟨7, h⟩
    · exact ⟨8, h⟩
    · exact ⟨9, h⟩
    · exact ⟨10, h⟩
    · exact ⟨11, h⟩
  · rintro ⟨j, rfl⟩
    revert j
    decide

theorem find?_congr_of_mem {α : Type} (p q : α → Bool) (l : List α)
    (h : ∀ x ∈ l, p x = q x) : l.find? p = l.find? q := by
  induction l with
  | nil => rfl
  | cons x xs ih =>
    have hx := h x (List.mem_cons_self _ _)
    have hxs := ih fun y hy => h y (List.mem_cons_of_mem _ hy)
    simp only [List.find?_cons, hx, hxs]

theorem trend_entry_at (incomes : List Income) (expenses : List Expense)
    (selectedYear : Int) (k : Fin 12) :
    (getMonthlyTrendData incomes expenses selectedYear).get? k.val =
      some
        { month := monthNames.getD k.val ""
          income :=
            numOrZero ((incomes.find? fun i =>
              jsSubstring i.month 0 3 == utf16 (monthNames.getD k.val "") &&
                i.year == selectedYear).map fun i => i.amount)
          expenses :=
            (expenses.filter fun e =>
                toLocaleMonthShort e.date == monthNames.getD k.val "" &&
                  e.date.year == selectedYear).foldl
              (fun sum e => sum + e.amount) 0
          savings :=
            numOrZero ((incomes.find? fun i =>
              jsSubstring i.month 0 3 == utf16 (monthNames.getD k.val "") &&
                i.year == selectedYear).map fun i => i.amount) -
            (expenses.filter fun e =>
                toLocaleMonthShort e.date == monthNames.getD k.val "" &&
                  e.date.year == selectedYear).foldl
              (fun sum e => sum + e.amount) 0 } := by
  unfold getMonthlyTrendData
  rw [List.get?_eq_getElem?, List.getElem?_map, ← List.get?_eq_getElem?, monthNames_get? k]
  rfl

/-- C22: the first three code units of the j-th full month name are the k-th trend
abbreviation exactly when j = k; hence, when every income record has one of the twelve
full names as its month, the income of trend entry k is `monthlyData.income` for the
k-th full month name and the same year. -/
theorem trend_agrees_with_monthly (incomes : List Income) (expenses : List Expense)
    (selectedYear : Int) (k : Fin 12) (hmonths : ∀ i ∈ incomes, i.month ∈ months) :
    (∀ j l : Fin 12,
      jsSubstring (months.getD j.val "") 0 3 = utf16 (monthNames.getD l.val "") ↔ j = l) ∧
    ((getMonthlyTrendData incomes expenses selectedYear).get? k.val).map
        (fun t => t.income) =
      some (monthlyData incomes expenses (months.getD k.val "") selectedYear).income := by
  refine ⟨months_prefix_iff, ?_⟩
  rw [trend_entry_at]
  simp only [Option.map_some', monthlyData]
  congr 3
  apply find?_congr_of_mem
  intro i hi
  obtain ⟨j, hj⟩ := (mem_months_iff i.month).mp (hmonths i hi)
  rw [Bool.eq_iff_iff, Bool.and_eq_true, Bool.and_eq_true, beq_iff_eq, beq_iff_eq, beq_iff_eq,
    hj, months_prefix_iff]
  constructor
  · rintro ⟨h1, h2⟩
    exact ⟨by rw [h1], h2⟩
  · rintro ⟨h1, h2⟩
    exact ⟨months_getD_injective j k h1, h2⟩

/-- Witness of C22: incomes of March and May 2024; entry 4 is the figure for May. -/
theorem trend_agrees_with_monthly_witness :
    ((getMonthlyTrendData [⟨"i1", 1000, "March", 2024, false⟩,
        ⟨"i2", 700, "May", 2024, true⟩] [] 2024).get? 4).map (fun t => t.income) =
      some (monthlyData [⟨"i1", 1000, "March", 2024, false⟩,
        ⟨"i2", 700, "May", 2024, true⟩] [] "May" 2024).income :=
  (trend_agrees_with_monthly [⟨"i1", 1000, "March", 2024, false⟩,
    ⟨"i2", 700, "May", 2024, true⟩] [] 2024 4 (by decide)).2

/-! ## Theorems: expense analysis by category -/

theorem ownProperty_defineOwn (o : JsObject) (key : String) (v : JsValue) (c : String) :
    ownProperty (defineOwn o key v) c = if key = c then some v else ownProperty o c := by
  induction o with
  | nil => simp [defineOwn, ownProperty]
  | cons p rest ih =>
    obtain ⟨k, w⟩ := p
    by_cases hk : k = key
    · subst hk
      by_cases hc : k = c <;> simp [defineOwn, ownProperty, hc]
    · by_cases hc : key = c
      · subst hc
        simp [defineOwn, ownProperty, hk, ih]
      · by_cases hkc : k = c
        · subst hkc
          simp [defineOwn, ownProperty, hk, hc]
        · simp [defineOwn, ownProperty, hk, hc, hkc, ih]

theorem ownProperty_eq_none_iff (o : JsObject) (c : String) :
    ownProperty o c = none ↔ c ∉ o.map Prod.fst := by
  induction o with
  | nil => simp [ownProperty]
  | cons p rest ih =>
    obtain ⟨k, w⟩ := p
    by_cases hk : k = c
    · simp [ownProperty, hk]
    · have hck : ¬ c = k := fun h => hk h.symm
      simp [ownProperty, hk, hck, ih]

theorem keys_defineOwn (o : JsObject) (key : String) (v : JsValue) :
    (defineOwn o key v).map Prod.fst =
      if key ∈ o.map Prod.fst then o.map Prod.fst else o.map Prod.fst ++ [key] := by
  induction o with
  | nil => simp [defineOwn]
  | cons p rest ih =>
    obtain ⟨k, w⟩ := p
    by_cases hk : k = key
    · subst hk
      simp [defineOwn]
    · have hkk : ¬ key = k := fun h => hk h.symm
      simp only [defineOwn, hk, if_false, List.map_cons, ih, List.mem_cons, hkk, false_or]
      split <;> simp

theorem keys_nodup_defineOwn (o : JsObject) (key : String) (v : JsValue)
    (h : (o.map Prod.fst).Nodup) : ((defineOwn o key v).map Prod.fst).Nodup := by
  rw [keys_defineOwn]
  split
  · exact h
  · rename_i hk
    rw [List.nodup_append]
    refine ⟨h, List.nodup_singleton _, ?_⟩
    intro a ha hb
    simp only [List.mem_singleton] at hb
    exact hk (hb ▸ ha)

theorem categoryFold_keys_nodup (l : List Expense) :
    ((l.foldl categoryStep []).map Prod.fst).Nodup := by
  induction l using List.reverseRecOn with
  | nil => simp
  | append_singleton l e ih =>
    rw [List.foldl_append, List.foldl_cons, List.foldl_nil]
    unfold categoryStep writeProperty
    split
    · exact ih
    · exact keys_nodup_defineOwn _ _ _ ih

theorem categoryStep_plain (acc : JsObject) (e : Expense)
    (h : e.category ∉ objectPrototypeKeys) :
    categoryStep acc e =
      defineOwn acc e.category
        (match ownProperty acc e.category with
          | some (.num v) => .num (v + e.amount)
          | some .str => .str
          | none => .num (0 + e.amount)) := by
  have hp : e.category ≠ "__proto__" := by
    intro hc
    apply h
    rw [hc]
    decide
  unfold categoryStep writeProperty readProperty
  rw [if_neg hp]
  congr 1
  cases ho : ownProperty acc e.category with
  | none => simp [h, orZeroPlus]
  | some v =>
    cases v with
    | str => simp [orZeroPlus]
    | num q =>
      by_cases hq : q = 0 <;> simp [orZeroPlus, hq]

theorem categoryFold_spec (l : List Expense)
    (h : ∀ e ∈ l, e.category ∉ objectPrototypeKeys) (c : String) :
    ownProperty (l.foldl categoryStep []) c =
      if c ∈ l.map (fun e => e.category) then
        some (.num (((l.filter fun e => e.category == c).map fun e => e.amount).sum))
      else none := by
  induction l using List.reverseRecOn generalizing c with
  | nil => simp [ownProperty]
  | append_singleton l e ih =>
    have hl : ∀ x ∈ l, x.category ∉ objectPrototypeKeys := fun x hx =>
      h x (List.mem_append_left _ hx)
    have he : e.category ∉ objectPrototypeKeys := h e (by simp)
    rw [List.foldl_append, List.foldl_cons, List.foldl_nil, categoryStep_plain _ _ he,
      ownProperty_defineOwn]
    by_cases hc : e.category = c
    · subst hc
      rw [if_pos rfl, ih hl e.category]
      by_cases hm : e.category ∈ l.map fun e => e.category
      · simp [hm, List.filter_append]
      · have hnil : (l.filter fun x => x.category == e.category) = [] := by
          rw [List.filter_eq_nil_iff]
          intro x hx hxc
          exact hm (List.mem_map.mpr ⟨x, hx, by simpa using hxc⟩)
        simp [hm, List.filter_append, hnil]
    · have hce : ¬ c = e.category := fun h' => hc h'.symm
      rw [if_neg hc, ih hl c]
      simp [List.filter_append, hc, hce]

theorem entriesTotal_defineOwn (o : JsObject) (key : String) (q : ℚ) :
    entriesTotal (defineOwn o key (.num q)) =
      entriesTotal o + q -
        (match ownProperty o key with
          | some (.num v) => v
          | _ => 0) := by
  induction o with
  | nil => simp [defineOwn, entriesTotal, ownProperty]
  | cons p rest ih =>
    obtain ⟨k, w⟩ := p
    by_cases hk : k = key
    · subst hk
      cases w <;> simp [defineOwn, entriesTotal, ownProperty] <;> ring
    · unfold entriesTotal at ih ⊢
      simp only [defineOwn, hk, if_false, List.map_cons, List.sum_cons, ownProperty, ih]
      ring

theorem categoryFold_total (l : List Expense)
    (h : ∀ e ∈ l, e.category ∉ objectPrototypeKeys) :
    entriesTotal (l.foldl categoryStep []) = (l.map fun e => e.amount).sum := by
  induction l using List.reverseRecOn with
  | nil => simp [entriesTotal]
  | append_singleton l e ih =>
    have hl : ∀ x ∈ l, x.category ∉ objectPrototypeKeys := fun x hx =>
      h x (List.mem_append_left _ hx)
    have he : e.category ∉ objectPrototypeKeys := h e (by simp)
    rw [List.foldl_append, List.foldl_cons, List.foldl_nil, categoryStep_plain _ _ he]
    have hs := categoryFold_spec l hl e.category
    by_cases hm : e.category ∈ l.map fun e => e.category
    · rw [if_pos hm] at hs
      rw [hs]
      simp only
      rw [entriesTotal_defineOwn, hs, ih hl]
      simp only [List.map_append, List.sum_append, List.map_cons, List.map_nil, List.sum_cons,
        List.sum_nil]
      ring
    · rw [if_neg hm] at hs
      rw [hs]
      simp only
      rw [entriesTotal_defineOwn, hs, ih hl]
      simp

theorem objectEntries_perm (o : JsObject) : (objectEntries o).Perm o := by
  unfold objectEntries
  exact ((List.perm_insertionSort _ _).append_right _).trans (List.filter_append_perm _ o)

theorem monthLong_filter_eq (k : Fin 12) (selectedYear : Int) :
    (fun e : Expense =>
        toLocaleMonthLong e.date == months.getD k.val "" && e.date.year == selectedYear) =
      fun e => decide (e.date.month = k) && decide (e.date.year = selectedYear) := by
  funext e
  rw [Bool.eq_iff_iff, Bool.and_eq_true, Bool.and_eq_true, beq_iff_eq, beq_iff_eq,
    decide_eq_true_eq, decide_eq_true_eq, toLocaleMonthLong_eq_iff]

/-- Where no expense of the selected month has a category that is the name of a property
inherited from `Object.prototype`, `categoryData` has exactly one entry for each category
occurring among the expenses of the selected month and year, each holding the sum of the
amounts of these expenses with that category, and `barChartData` holds the same
entries. -/
theorem categoryData_of_plain_categories (expenses : List Expense) (k : Fin 12)
    (selectedYear : Int)
    (h : ∀ e ∈ expenses, e.date.month = k → e.date.year = selectedYear →
      e.category ∉ objectPrototypeKeys) :
    ((categoryData expenses (months.getD k.val "") selectedYear).map Prod.fst).Nodup ∧
    (∀ c, c ∈ (categoryData expenses (months.getD k.val "") selectedYear).map Prod.fst ↔
      ∃ e ∈ expenses, e.date.month = k ∧ e.date.year = selectedYear ∧ e.category = c) ∧
    (∀ c, c ∈ (categoryData expenses (months.getD k.val "") selectedYear).map Prod.fst →
      ownProperty (categoryData expenses (months.getD k.val "") selectedYear) c =
        some (.num ((((expenses.filter fun e =>
          decide (e.date.month = k) && decide (e.date.year = selectedYear)).filter
            fun e => e.category == c).map fun e => e.amount).sum))) ∧
    (barChartData expenses (months.getD k.val "") selectedYear).Perm
      ((categoryData expenses (months.getD k.val "") selectedYear).map fun e =>
        { category := e.1, amount := e.2 }) := by
  have hsel : ∀ e ∈ expenses.filter (fun e =>
      decide (e.date.month = k) && decide (e.date.year = selectedYear)),
      e.category ∉ objectPrototypeKeys := by
    intro e he
    rw [List.mem_filter] at he
    simp only [Bool.and_eq_true, decide_eq_true_eq] at he
    exact h e he.1 he.2.1 he.2.2
  have hspec := categoryFold_spec _ hsel
  have hkeys : ∀ c,
      c ∈ (categoryData expenses (months.getD k.val "") selectedYear).map Prod.fst ↔
        c ∈ (expenses.filter fun e =>
          decide (e.date.month = k) && decide (e.date.year = selectedYear)).map
            fun e => e.category := by
    intro c
    unfold categoryData
    rw [monthLong_filter_eq]
    constructor
    · intro hc
      by_contra hn
      have := hspec c
      rw [if_neg hn, ownProperty_eq_none_iff] at this
      exact this hc
    · intro hc
      by_contra hn
      have := hspec c
      rw [if_pos hc] at this
      rw [(ownProperty_eq_none_iff _ c).mpr hn] at this
      simp at this
  refine ⟨?_, ?_, ?_, ?_⟩
  · unfold categoryData
    exact categoryFold_keys_nodup _
  · intro c
    rw [hkeys c, List.mem_map]
    constructor
    · rintro ⟨e, he, rfl⟩
      rw [List.mem_filter] at he
      simp only [Bool.and_eq_true, decide_eq_true_eq] at he
      exact ⟨e, he.1, he.2.1, he.2.2, rfl⟩
    · rintro ⟨e, he, hm, hy, rfl⟩
      exact ⟨e, List.mem_filter.mpr ⟨he, by simp [hm, hy]⟩, rfl⟩
  · intro c hc
    have hc' := (hkeys c).mp hc
    have := hspec c
    rw [if_pos hc'] at this
    unfold categoryData
    rw [monthLong_filter_eq]
    exact this
  · unfold barChartData
    exact (objectEntries_perm _).map _

/-- Where no expense of the selected month has a category that is the name of a property
inherited from `Object.prototype`, the amounts of the entries of `categoryData` add up to
`monthlyData.expenses`. -/
theorem categoryData_total_of_plain_categories (incomes : List Income)
    (expenses : List Expense) (k : Fin 12) (selectedYear : Int)
    (h : ∀ e ∈ expenses, e.date.month = k → e.date.year = selectedYear →
      e.category ∉ objectPrototypeKeys) :
    entriesTotal (categoryData expenses (months.getD k.val "") selectedYear) =
      (monthlyData incomes expenses (months.getD k.val "") selectedYear).expenses := by
  have hsel : ∀ e ∈ expenses.filter (fun e =>
      decide (e.date.month = k) && decide (e.date.year = selectedYear)),
      e.category ∉ objectPrototypeKeys := by
    intro e he
    rw [List.mem_filter] at he
    simp only [Bool.and_eq_true, decide_eq_true_eq] at he
    exact h e he.1 he.2.1 he.2.2
  unfold categoryData monthlyData
  simp only [monthLong_filter_eq, foldl_add_eq_sum, zero_add]
  exact categoryFold_total _ hsel

/-- C23, at the failing input: with an expense of 400 in a category named `constructor`
and one of 50 in a category named `__proto__`, both of March 2024, `categoryData` and
`barChartData` have the single entry `constructor`, whose amount is a string and not the
number 400, and no entry for `__proto__`; with the categories `Food` and `Rent` instead
the entries are the two sums. -/
theorem categoryData_inherited_key :
    categoryData [⟨"e1", 400, "constructor", ⟨2024, 2, 15⟩⟩,
        ⟨"e2", 50, "__proto__", ⟨2024, 2, 20⟩⟩] "March" 2024 = [("constructor", .str)] ∧
    barChartData [⟨"e1", 400, "constructor", ⟨2024, 2, 15⟩⟩,
        ⟨"e2", 50, "__proto__", ⟨2024, 2, 20⟩⟩] "March" 2024 =
      [{ category := "constructor", amount := .str }] ∧
    ownProperty (categoryData [⟨"e1", 400, "constructor", ⟨2024, 2, 15⟩⟩,
        ⟨"e2", 50, "__proto__", ⟨2024, 2, 20⟩⟩] "March" 2024) "constructor" ≠
      some (.num 400) ∧
    ownProperty (categoryData [⟨"e1", 400, "constructor", ⟨2024, 2, 15⟩⟩,
        ⟨"e2", 50, "__proto__", ⟨2024, 2, 20⟩⟩] "March" 2024) "__proto__" = none ∧
    categoryData [⟨"e1", 400, "Food", ⟨2024, 2, 15⟩⟩,
        ⟨"e2", 50, "Rent", ⟨2024, 2, 20⟩⟩] "March" 2024 =
      [("Food", .num 400), ("Rent", .num 50)] := by
  refine ⟨by decide, by decide, by decide, by decide, ?_⟩
  simp [categoryData, toLocaleMonthLong, months, categoryStep, readProperty, ownProperty,
    objectPrototypeKeys, orZeroPlus, writeProperty, defineOwn]

/-- C24, at the failing input: with a single expense of 400 of March 2024 in a category
named `__proto__`, `categoryData` has no entry, so its amounts add up to 0, while
`monthlyData.expenses` is 400. -/
theorem categoryData_total_inherited_key :
    categoryData [⟨"e1", 400, "__proto__", ⟨2024, 2, 15⟩⟩] "March" 2024 = [] ∧
    entriesTotal (categoryData [⟨"e1", 400, "__proto__", ⟨2024, 2, 15⟩⟩] "March" 2024) = 0 ∧
    (monthlyData [] [⟨"e1", 400, "__proto__", ⟨2024, 2, 15⟩⟩] "March" 2024).expenses = 400 ∧
    entriesTotal (categoryData [⟨"e1", 400, "__proto__", ⟨2024, 2, 15⟩⟩] "March" 2024) ≠
      (monthlyData [] [⟨"e1", 400, "__proto__", ⟨2024, 2, 15⟩⟩] "March" 2024).expenses := by
  have h1 : categoryData [⟨"e1", 400, "__proto__", ⟨2024, 2, 15⟩⟩] "March" 2024 = [] := by
    decide
  have h2 : (monthlyData [] [⟨"e1", 400, "__proto__", ⟨2024, 2, 15⟩⟩]
      "March" 2024).expenses = 400 := by
    simp [monthlyData, toLocaleMonthLong, months]
  refine ⟨h1, by rw [h1]; rfl, h2, ?_⟩
  rw [h1, h2]
  simp [entriesTotal]

/-! ## Theorems: savings percentage bounds and gauge -/

theorem totalIncome_nonneg (incomes : List Income) (h : ∀ i ∈ incomes, 0 ≤ i.amount) :
    0 ≤ totalIncome incomes := by
  rw [totalIncome, foldl_add_eq_sum, zero_add]
  apply List.sum_nonneg
  intro x hx
  obtain ⟨i, hi, rfl⟩ := List.mem_map.mp hx
  exact h i hi

theorem totalExpenses_nonneg (expenses : List Expense) (h : ∀ e ∈ expenses, 0 ≤ e.amount) :
    0 ≤ totalExpenses expenses := by
  rw [totalExpenses, foldl_add_eq_sum, zero_add]
  apply List.sum_nonneg
  intro x hx
  obtain ⟨e, he, rfl⟩ := List.mem_map.mp hx
  exact h e he

/-- C25: with non-negative amounts `savingsPercentage <= 100`; if moreover
`totalExpenses <= totalIncome` then `0 <= savingsPercentage <= 100`; it is 100 when
`totalIncome > 0` and `totalExpenses = 0`; and when `totalExpenses > totalIncome > 0` it
is the rounded negative ratio, not clamped to 0: it is at most 0 and it is negative for
income 200 and expenses 205. -/
theorem savingsPercentage_bounds (incomes : List Income) (expenses : List Expense)
    (hi : ∀ i ∈ incomes, 0 ≤ i.amount) (he : ∀ e ∈ expenses, 0 ≤ e.amount) :
    savingsPercentage incomes expenses ≤ 100 ∧
    (totalExpenses expenses ≤ totalIncome incomes →
      0 ≤ savingsPercentage incomes expenses ∧ savingsPercentage incomes expenses ≤ 100) ∧
    (0 < totalIncome incomes → totalExpenses expenses = 0 →
      savingsPercentage incomes expenses = 100) ∧
    (0 < totalIncome incomes → totalIncome incomes < totalExpenses expenses →
      savingsPercentage incomes expenses =
        mathRound (totalSavings incomes expenses / totalIncome incomes * 100) ∧
      savingsPercentage incomes expenses ≤ 0) ∧
    (∃ (incomes' : List Income) (expenses' : List Expense),
      (∀ i ∈ incomes', 0 ≤ i.amount) ∧ (∀ e ∈ expenses', 0 ≤ e.amount) ∧
      0 < totalIncome incomes' ∧ totalIncome incomes' < totalExpenses expenses' ∧
      savingsPercentage incomes' expenses' < 0) := by
  have hE := totalExpenses_nonneg expenses he
  have hI := totalIncome_nonneg incomes hi
  have hle : savingsPercentage incomes expenses ≤ 100 := by
    unfold savingsPercentage
    split
    · rename_i hpos
      have hx : totalSavings incomes expenses / totalIncome incomes * 100 ≤ 100 := by
        have : totalSavings incomes expenses / totalIncome incomes ≤ 1 := by
          rw [div_le_one hpos, totalSavings]
          linarith
        linarith
      unfold mathRound
      have : ⌊totalSavings incomes expenses / totalIncome incomes * 100 + 1 / 2⌋ < 101 := by
        rw [Int.floor_lt]
        push_cast
        linarith
      omega
    · norm_num
  refine ⟨hle, ?_, ?_, ?_, ?_⟩
  · intro h
    refine ⟨?_, hle⟩
    unfold savingsPercentage
    split
    · rename_i hpos
      unfold mathRound
      rw [Int.floor_nonneg]
      have : 0 ≤ totalSavings incomes expenses / totalIncome incomes :=
        div_nonneg (by rw [totalSavings]; linarith) (le_of_lt hpos)
      linarith
    · exact le_refl 0
  · intro hpos h0
    unfold savingsPercentage
    rw [if_pos hpos]
    have hne : totalIncome incomes ≠ 0 := ne_of_gt hpos
    have : totalSavings incomes expenses / totalIncome incomes * 100 = 100 := by
      rw [totalSavings, h0, sub_zero, div_self hne]
      norm_num
    rw [this]
    unfold mathRound
    rw [Int.floor_eq_iff]
    norm_num
  · intro hpos hlt
    have heq : savingsPercentage incomes expenses =
        mathRound (totalSavings incomes expenses / totalIncome incomes * 100) := by
      unfold savingsPercentage
      rw [if_pos hpos]
    refine ⟨heq, ?_⟩
    rw [heq]
    unfold mathRound
    have hneg : totalSavings incomes expenses / totalIncome incomes < 0 :=
      div_neg_of_neg_of_pos (by rw [totalSavings]; linarith) hpos
    have : ⌊totalSavings incomes expenses / totalIncome incomes * 100 + 1 / 2⌋ < 1 := by
      rw [Int.floor_lt]
      push_cast
      linarith
    omega
  · refine ⟨[⟨"i1", 200, "March", 2024, false⟩], [⟨"e1", 205, "Food", ⟨2024, 2, 15⟩⟩],
      ?_, ?_, ?_, ?_, ?_⟩
    · intro i hi'
      simp only [List.mem_singleton] at hi'
      subst hi'
      norm_num
    · intro e he'
      simp only [List.mem_singleton] at he'
      subst he'
      norm_num
    · norm_num [totalIncome]
    · norm_num [totalIncome, totalExpenses]
    · have hpos : totalIncome [⟨"i1", 200, "March", 2024, false⟩] > 0 := by
        norm_num [totalIncome]
      unfold savingsPercentage
      rw [if_pos hpos]
      unfold mathRound
      rw [Int.floor_lt]
      norm_num [totalSavings, totalIncome, totalExpenses]

/-- Witness of C25: income 1000 with expenses 400, and income 1000 with no expense. -/
theorem savingsPercentage_bounds_witness :
    (0 ≤ savingsPercentage [⟨"i1", 1000, "March", 2024, false⟩]
        [⟨"e1", 400, "Food", ⟨2024, 2, 15⟩⟩] ∧
      savingsPercentage [⟨"i1", 1000, "March", 2024, false⟩]
        [⟨"e1", 400, "Food", ⟨2024, 2, 15⟩⟩] ≤ 100) ∧
    savingsPercentage [⟨"i1", 1000, "March", 2024, false⟩] [] = 100 :=
  ⟨(savingsPercentage_bounds [⟨"i1", 1000, "March", 2024, false⟩]
      [⟨"e1", 400, "Food", ⟨2024, 2, 15⟩⟩]
      (by intro i hi; simp only [List.mem_singleton] at hi; subst hi; norm_num)
      (by intro e he; simp only [List.mem_singleton] at he; subst he; norm_num)).2.1
      (by norm_num [totalIncome, totalExpenses]),
   (savingsPercentage_bounds [⟨"i1", 1000, "March", 2024, false⟩] []
      (by intro i hi; simp only [List.mem_singleton] at hi; subst hi; norm_num)
      (by intro e he; simp at he)).2.2.1
      (by norm_num [totalIncome]) (by norm_num [totalExpenses])⟩

/-- C26: the fill of the savings gauge is green exactly when the percentage is above 30,
amber exactly when it is above 10 and at most 30, and red exactly when it is at most 10,
negative values included; every value has one of the three colours, which are distinct;
30 itself is amber; and `radialData` is the single entry `Savings` with the percentage and
this fill. -/
theorem radial_fill_classification (p : Int) (incomes : List Income)
    (expenses : List Expense) :
    (radialFill p = "#4CAF50" ↔ p > 30) ∧
    (radialFill p = "#FFC107" ↔ 10 < p ∧ p ≤ 30) ∧
    (radialFill p = "#f44336" ↔ p ≤ 10) ∧
    (radialFill p = "#4CAF50" ∨ radialFill p = "#FFC107" ∨ radialFill p = "#f44336") ∧
    radialFill 30 = "#FFC107" ∧ radialFill 31 = "#4CAF50" ∧ radialFill 10 = "#f44336" ∧
    radialFill (-2) = "#f44336" ∧
    radialData incomes expenses =
      [{ name := "Savings", value := savingsPercentage incomes expenses,
         fill := radialFill (savingsPercentage incomes expenses) }] := by
  have hga : ("#4CAF50" : String) ≠ "#FFC107" := by decide
  have hgr : ("#4CAF50" : String) ≠ "#f44336" := by decide
  have har : ("#FFC107" : String) ≠ "#f44336" := by decide
  refine ⟨?_, ?_, ?_, ?_, by decide, by decide, by decide, by decide, rfl⟩
  · unfold radialFill
    by_cases h1 : p > 30
    · simp [h1]
    · by_cases h2 : p > 10
      · simp [h1, h2, hga.symm]
      · simp [h1, h2, hgr.symm]
  · unfold radialFill
    by_cases h1 : p > 30
    · simp only [if_pos h1]
      constructor
      · intro h; exact absurd h hga
      · intro h; omega
    · by_cases h2 : p > 10
      · simp only [if_neg h1, if_pos h2, true_iff]
        omega
      · simp only [if_neg h1, if_neg h2]
        constructor
        · intro h; exact absurd h.symm har
        · intro h; omega
  · unfold radialFill
    by_cases h1 : p > 30
    · simp only [if_pos h1]
      constructor
      · intro h; exact absurd h hgr
      · intro h; omega
    · by_cases h2 : p > 10
      · simp only [if_neg h1, if_pos h2]
        constructor
        · intro h; exact absurd h har
        · intro h; omega
      · simp only [if_neg h1, if_neg h2, true_iff]
        omega
  · unfold radialFill
    by_cases h1 : p > 30
    · simp [h1]
    · by_cases h2 : p > 10 <;> simp [h1, h2]

/-! ## Theorems: loading flag and useAuth -/

/-- C27: after `login`, `register` or `logout`, for every prior state and every outcome
of the request or of the validation, `loading` is false, whether the call returned or
threw. -/
theorem loading_released (loginReply registerReply logoutReply : HttpResult ResponseData)
    (s : AuthState) (userInput username email password : String) :
    (login loginReply s userInput password).state.loading = false ∧
    (register registerReply s username email password).state.loading = false ∧
    (logout logoutReply s).state.loading = false := by
  refine ⟨?_, ?_, ?_⟩
  · cases loginReply <;> simp [login, loginTry, loginCatch]
  · unfold register registerTry registerCatch
    cases registerReply <;> cases includesAt email <;>
      by_cases hp : jsLength password < 6 <;> simp [hp]
  · cases logoutReply <;> simp [logout, logoutTry, logoutCatch]

/-- C28: inside an `AuthProvider`, `useAuth` returns the value of the nearest provider;
with no provider, where the context value is `null`, it throws the error
`useAuth must be used within an AuthProvider`; it never returns `null`. -/
theorem useAuth_provider (value : AuthState) (outer providers : List AuthState) :
    useAuth (value :: outer) = .ok (some value) ∧
    useContext [] = none ∧
    useAuth [] = .error (newError "useAuth must be used within an AuthProvider") ∧
    useAuth providers ≠ .ok none := by
  refine ⟨rfl, rfl, rfl, ?_⟩
  cases providers with
  | nil => simp [useAuth, useContext]
  | cons v rest => simp [useAuth, useContext]

end ExpenseTracker
